import Mathlib

/-!
Verification development for the ant-simulation repository.

The simulation core (`simulation.js`) is shallowly embedded below.
JavaScript numbers are modelled as `ℚ` (all arithmetic the claims touch is
exact: +, -, /2, min), grid coordinates as `ℤ`, counters as `ℕ`.
Every call to `Math.random()` in the source is modelled as one value drawn
from an explicit oracle parameter (a function from the call site's index
data to `ℚ`, or for lazy cell generation an oracle `ℤ → ℤ → Cell` standing
for the density roll); theorems that depend on the range of a draw take
the range `[0,1)` as a hypothesis, mirroring `Math.random()`'s contract.
-/

namespace AntSim

/-- Cell classification of one grid coordinate (`getCell` in the source
returns one of the strings `"empty" | "food" | "terrain"`). -/
inductive Cell where
  | empty
  | food
  | terrain
  deriving DecidableEq, Repr

/-- Lifecycle stage of an ant (`"egg" | "adult" | "old"` in the source). -/
inductive Stage where
  | egg
  | adult
  | old
  deriving DecidableEq, Repr

/-- The string-tagged actions of the source, plus `none` which models both
the literal `"none"` returned by `decideAction` for eggs and the
`undefined` `nextAction` of ants pushed mid-tick (both are treated
identically by the source: not `"mate"`, and no `processAction` case). -/
inductive Action where
  | up
  | down
  | left
  | right
  | attack
  | eat
  | sleep
  | mate
  | asexual
  | none
  deriving DecidableEq, Repr

/-- A neural-network parameter bundle as the running program actually holds
it: `randomWeights`/`randomBiases` build, per layer, a flat array of 10
numbers, and crossover maps over each layer element-wise, so both
`weights` and `biases` are lists of numeric layers. -/
structure Genome where
  weights : List (List ℚ)
  biases : List (List ℚ)
  deriving DecidableEq, Repr

/-- Mutable per-ant state (class `Ant`).  `baseColor` is a pure function of
the genome used only for rendering and is omitted.  `id` models
`crypto.randomUUID()` as a natural number. -/
structure Ant where
  x : ℤ
  y : ℤ
  age : ℕ
  health : ℚ
  stage : Stage
  stageAge : ℕ
  id : ℕ
  genome : Genome
  nextAction : Action
  deriving DecidableEq, Repr

/-- The global `params` record (only the fields the simulation core reads).
`antLifespan` is kept in `ℚ` because it is compared against
`age + jitter`. -/
structure Params where
  antLifespan : ℚ
  maxAnts : ℕ
  maxAntHealth : ℚ
  eggToAdultTicks : ℕ
  genomeNoise : ℚ

/-- The default values assigned to `params` in the source. -/
def defaultParams : Params :=
  { antLifespan := 500
    maxAnts := 200
    maxAntHealth := 100
    eggToAdultTicks := 50
    genomeNoise := 1/10 }

/-- The grid: `this.grid = new Map()` keyed by `"x,y"` strings.  Modelled
as an association list with insert-at-front overwrite semantics; lookup
takes the first (most recent) binding, matching `Map.get` after
`Map.set`. -/
def Grid := List ((ℤ × ℤ) × Cell)

/-- The `Map.get` lookup on the grid. -/
def gridGet : Grid → ℤ → ℤ → Option Cell
  | [], _, _ => Option.none
  | (k, c) :: rest, x, y => if k = (x, y) then some c else gridGet rest x y

/-- The `Simulation.getCell` lookup: return the stored classification, lazily
materializing an unseen coordinate with the density-roll oracle `gen`.
Returns the cell together with the (possibly extended) grid. -/
def getCellM (g : Grid) (gen : ℤ → ℤ → Cell) (x y : ℤ) : Cell × Grid :=
  match gridGet g x y with
  | some c => (c, g)
  | Option.none => (gen x y, ((x, y), gen x y) :: g)

/-- The classification `getCell` returns, as a pure read (stored value if
present, otherwise the oracle's roll).  `getCellM` returns exactly this
value and only ever inserts it, so threading the grid never changes it
(`getCellVal_getCellM` below). -/
def getCellVal (g : Grid) (gen : ℤ → ℤ → Cell) (x y : ℤ) : Cell :=
  (gridGet g x y).getD (gen x y)

/-- The `Simulation.clearCell(x, y)` write: `this.grid.set(` the key `, "empty")`. -/
def clearCell (g : Grid) (x y : ℤ) : Grid := ((x, y), Cell.empty) :: g

/-- The `Simulation.getAntAt` search: `this.ants.find(a => a.x === x && a.y === y)`. -/
def getAntAt (ants : List Ant) (x y : ℤ) : Option Ant :=
  ants.find? (fun a => a.x = x ∧ a.y = y)

/-- The `NeuralNetwork.sampleIndex` loop: starting from the draw `r`, subtract the
probabilities in order and stop at the first index where the remainder
is `≤ 0`; `none` means the loop fell through. -/
def sampleIndexAux (r : ℚ) (i : ℕ) : List ℚ → Option ℕ
  | [] => Option.none
  | p :: ps => if r - p ≤ 0 then some i else sampleIndexAux (r - p) (i + 1) ps

/-- The full `NeuralNetwork.sampleIndex(probabilities)` for the draw `r`.  The
fallback `return probabilities.length - 1` makes the result an integer
(it is `-1` on the empty list). -/
def sampleIndex (r : ℚ) (probs : List ℚ) : ℤ :=
  match sampleIndexAux r 0 probs with
  | some i => (i : ℤ)
  | Option.none => (probs.length : ℤ) - 1

/-- The per-layer parent selection of the mating block: layer `i` is taken
from the initiating ant when `i` is even, from the partner otherwise,
iterating `i` over the initiator's layer count. -/
def crossoverSelect (aL bL : List (List ℚ)) : List (List ℚ) :=
  (List.range aL.length).map (fun i => if i % 2 = 0 then aL.getD i [] else bL.getD i [])

/-- The mutation pass of the mating block:
`layer.map(value => value + (Math.random() - 0.5) * params.genomeNoise)`,
with `noise i j` the oracle value of the `Math.random()` call for element
`j` of layer `i`. -/
def mutateLayers (gn : ℚ) (noise : ℕ → ℕ → ℚ) (layers : List (List ℚ)) : List (List ℚ) :=
  layers.mapIdx (fun i layer => layer.mapIdx (fun j v => v + (noise i j - 1/2) * gn))

/-- The full crossover performed during mate resolution (source lines
454-494): per-layer selection from the two parents followed by additive
noise, for weights and biases alike. -/
def crossover (gn : ℚ) (noiseW noiseB : ℕ → ℕ → ℚ) (g₁ g₂ : Genome) : Genome :=
  { weights := mutateLayers gn noiseW (crossoverSelect g₁.weights g₂.weights)
    biases := mutateLayers gn noiseB (crossoverSelect g₁.biases g₂.biases) }

/-- The 3×3 neighborhood offsets in the order `processVision` visits them:
`dy` in the outer loop, `dx` in the inner loop, both from -1 to 1. -/
def visionOffsets : List (ℤ × ℤ) :=
  [(-1, -1), (0, -1), (1, -1), (-1, 0), (0, 0), (1, 0), (-1, 1), (0, 1), (1, 1)]

/-- The `Ant.processVision` scan: build the input vector cell by cell, threading the
grid through the lazy `getCell` calls.  A cell occupied by any ant found
by `getAntAt` encodes 2; otherwise food encodes 1, terrain 0, empty -1
(the source's `let value = 0` initializer is unreachable because
`getCell` always returns one of the three classifications). -/
def processVision (ants : List Ant) (g : Grid) (gen : ℤ → ℤ → Cell) (a : Ant) :
    List ℤ × Grid :=
  visionOffsets.foldl
    (fun acc d =>
      let cg := getCellM acc.2 gen (a.x + d.1) (a.y + d.2)
      let v : ℤ :=
        if (getAntAt ants (a.x + d.1) (a.y + d.2)).isSome then 2
        else
          match cg.1 with
          | Cell.food => 1
          | Cell.terrain => 0
          | Cell.empty => -1
      (acc.1 ++ [v], cg.2))
    ([], g)

/-- The random / impure inputs consumed by one `Simulation.update` call,
each mirroring one `Math.random()` (or `randomUUID`) site of the source:
`pick i a` stands for the neural-network decision pipeline
(`predict`/`softmax`/`sampleIndex` with its random draw) of the non-egg
ant `a` at index `i`; `noiseW`/`noiseB e i j` are the crossover mutation
draws for mating event `e`, layer `i`, element `j`; `mateId`/`asexId`
supply fresh UUIDs for eggs; `jitter i` is
`(Math.random() - 0.5) * 0.05` for the ant at index `i`; `gen` is the
lazy cell-generation roll. -/
structure Oracles where
  pick : ℕ → Ant → Action
  noiseW : ℕ → ℕ → ℕ → ℚ
  noiseB : ℕ → ℕ → ℕ → ℚ
  mateId : ℕ → ℕ
  asexId : ℕ → ℕ
  jitter : ℕ → ℚ
  gen : ℤ → ℤ → Cell

/-- Phase 1 of `update`: `ant.nextAction = ant.decideAction(this)` for
every ant.  `decideAction` returns `"none"` for eggs and otherwise runs
the neural network, modelled by the `pick` oracle. -/
def phase1 (pick : ℕ → Ant → Action) (ants : List Ant) : List Ant :=
  ants.mapIdx (fun i a =>
    { a with nextAction := if a.stage = Stage.egg then Action.none else pick i a })

/-- The partner search of phase 2: scan the four orthogonal neighbor
cells in source order (up, down, left, right); at each, `getAntAt`
yields the first ant at that cell, which qualifies if it proposed
`mate`, is adult, and is not yet in the mated set. -/
def findPartner (ants : List Ant) (mated : List ℕ) (x y : ℤ) : Option Ant :=
  [(x, y - 1), (x, y + 1), (x - 1, y), (x + 1, y)].findSome?
    (fun c =>
      match getAntAt ants c.1 c.2 with
      | some o =>
          if o.nextAction = Action.mate ∧ o.stage = Stage.adult ∧ o.id ∉ mated
          then some o else Option.none
      | Option.none => Option.none)

/-- The egg constructed by a successful pairing in phase 2: placed at the
initiating ant's coordinates, with the crossover genome, `stage = "egg"`,
`stageAge = 0`, `health = 50`, fresh id, and no decided action yet. -/
def mkMateEgg (p : Params) (noiseW noiseB : ℕ → ℕ → ℚ) (eggId : ℕ) (a partner : Ant) :
    Ant :=
  { x := a.x
    y := a.y
    age := 0
    health := 50
    stage := Stage.egg
    stageAge := 0
    id := eggId
    genome := crossover p.genomeNoise noiseW noiseB a.genome partner.genome
    nextAction := Action.none }

/-- Phase 2 of `update` (mating), as an index loop over the live list.
JavaScript's `for (const ant of this.ants)` also visits elements pushed
during the loop, so the loop bound is re-read each step; `fuel` is a
structural-recursion bound shown unneeded whenever
`max ants.length p.maxAnts + 1 ≤ fuel + i` (the list can only grow while
shorter than `maxAnts`, so the loop runs at most that many steps; see
`phase2_congr`).  `mated` collects the ids in the `matedAnts` set. -/
def phase2 (p : Params) (noiseW noiseB : ℕ → ℕ → ℕ → ℚ) (mateId : ℕ → ℕ) :
    ℕ → ℕ → List Ant → List ℕ → List Ant
  | 0, _, ants, _ => ants
  | fuel + 1, i, ants, mated =>
    if h : i < ants.length then
      if (ants.get ⟨i, h⟩).nextAction = Action.mate ∧
          (ants.get ⟨i, h⟩).stage = Stage.adult ∧ (ants.get ⟨i, h⟩).id ∉ mated then
        match findPartner ants mated (ants.get ⟨i, h⟩).x (ants.get ⟨i, h⟩).y with
        | some partner =>
          if ants.length < p.maxAnts then
            phase2 p noiseW noiseB mateId fuel (i + 1)
              (ants ++ [mkMateEgg p (noiseW i) (noiseB i) (mateId i)
                (ants.get ⟨i, h⟩) partner])
              (mated ++ [(ants.get ⟨i, h⟩).id, partner.id])
          else phase2 p noiseW noiseB mateId fuel (i + 1) ants mated
        | Option.none => phase2 p noiseW noiseB mateId fuel (i + 1) ants mated
      else phase2 p noiseW noiseB mateId fuel (i + 1) ants mated
    else ants

/-- Does this action move the ant (the `["up","down","left","right"]`
membership test of `processAction`)? -/
def isMove : Action → Bool
  | Action.up => true
  | Action.down => true
  | Action.left => true
  | Action.right => true
  | _ => false

/-- Destination cell of a movement action. -/
def moveTarget (a : Ant) : Action → ℤ × ℤ
  | Action.up => (a.x, a.y - 1)
  | Action.down => (a.x, a.y + 1)
  | Action.left => (a.x - 1, a.y)
  | Action.right => (a.x + 1, a.y)
  | _ => (a.x, a.y)

/-- The attack-target search: the `||` chain over
`getAntAt(up) || getAntAt(down) || getAntAt(left) || getAntAt(right)`,
returning the list index of the found ant (the first ant in list order
at the first neighbor cell holding one). -/
def attackTargetIdx (ants : List Ant) (x y : ℤ) : Option ℕ :=
  [(x, y - 1), (x, y + 1), (x - 1, y), (x + 1, y)].findSome?
    (fun c => ants.findIdx? (fun a => a.x = c.1 ∧ a.y = c.2))

/-- Replace the element at index `i` (no-op when out of range). -/
def updateAt (i : ℕ) (f : Ant → Ant) (ants : List Ant) : List Ant :=
  match ants[i]? with
  | some a => ants.set i (f a)
  | Option.none => ants

/-- The clone egg created by `asexual` reproduction: same coordinates and
genome as the actor (the source aliases the parent's weight and bias
arrays into a new `NeuralNetwork`, so the values are identical),
`stage = "egg"`, `stageAge = 0`, `health = 50`, fresh id. -/
def asexEgg (a : Ant) (eid : ℕ) : Ant :=
  { x := a.x, y := a.y, age := 0, health := 50, stage := Stage.egg,
    stageAge := 0, id := eid, genome := a.genome, nextAction := Action.none }

/-- The `Ant.processAction(action, simulation)` step for the ant `a` sitting at
index `i` of the live list: returns the updated list and grid.
Movement is dropped when the destination classifies as terrain
(`getCell` still materializes it); `attack` damages the first orthogonal
target (eggs lose 50 and reward the attacker with up to +20 capped at
`maxAntHealth`, others lose 10); `eat` consumes a food cell for +20
health capped at 100; `sleep` is +5 capped at 100; `asexual`, when the
population is below `maxAnts`, halves the actor's health and appends a
clone egg ( `health = 50`, same coordinates, same genome).  `mate` and
`none`/undefined hit the switch's default: no effect. -/
def processActionStep (p : Params) (gen : ℤ → ℤ → Cell) (asexId : ℕ → ℕ)
    (a : Ant) (i : ℕ) (ants : List Ant) (g : Grid) : List Ant × Grid :=
  if isMove a.nextAction then
    if (getCellM g gen (moveTarget a a.nextAction).1 (moveTarget a a.nextAction).2).1 =
        Cell.terrain then
      (ants, (getCellM g gen (moveTarget a a.nextAction).1 (moveTarget a a.nextAction).2).2)
    else
      (ants.set i
          { a with x := (moveTarget a a.nextAction).1, y := (moveTarget a a.nextAction).2 },
        (getCellM g gen (moveTarget a a.nextAction).1 (moveTarget a a.nextAction).2).2)
  else
    match a.nextAction with
    | Action.attack =>
      match attackTargetIdx ants a.x a.y with
      | some t =>
        match ants[t]? with
        | some tgt =>
          if tgt.stage = Stage.egg then
            ((ants.set t { tgt with health := tgt.health - 50 }).set i
              { a with health := min p.maxAntHealth (a.health + 20) }, g)
          else (ants.set t { tgt with health := tgt.health - 10 }, g)
        | Option.none => (ants, g)
      | Option.none => (ants, g)
    | Action.eat =>
      if (getCellM g gen a.x a.y).1 = Cell.food then
        (ants.set i { a with health := min 100 (a.health + 20) },
          clearCell (getCellM g gen a.x a.y).2 a.x a.y)
      else (ants, (getCellM g gen a.x a.y).2)
    | Action.sleep => (ants.set i { a with health := min 100 (a.health + 5) }, g)
    | Action.asexual =>
      if ants.length < p.maxAnts then
        (ants.set i { a with health := a.health / 2 } ++ [asexEgg a (asexId i)], g)
      else (ants, g)
    | _ => (ants, g)

/-- The aging tail of each phase-3 iteration: `age++`, `stageAge++`,
`health -= 1`, then the two stage-transition checks in source order
(an egg reaching `eggToAdultTicks` becomes an adult with health reset
to 100; an adult whose age has reached `antLifespan` plus the jitter
draw becomes old). -/
def ageAnt (p : Params) (jit : ℚ) (a : Ant) : Ant :=
  let a1 := { a with age := a.age + 1, stageAge := a.stageAge + 1,
                     health := a.health - 1 }
  let a2 :=
    if a1.stage = Stage.egg ∧ p.eggToAdultTicks ≤ a1.stageAge then
      { a1 with stage := Stage.adult, health := 100 }
    else a1
  if a2.stage = Stage.adult ∧ p.antLifespan + jit ≤ (a2.age : ℚ) then
    { a2 with stage := Stage.old }
  else a2

/-- One phase-3 iteration's action part: the ant at index `i` executes
`processAction` unless its proposed action is `mate` (mated ants and
ants proposing `mate` without success skip acting). -/
def actPhase (p : Params) (gen : ℤ → ℤ → Cell) (asexId : ℕ → ℕ)
    (i : ℕ) (ants : List Ant) (g : Grid) (h : i < ants.length) : List Ant × Grid :=
  if (ants.get ⟨i, h⟩).nextAction ≠ Action.mate then
    processActionStep p gen asexId (ants.get ⟨i, h⟩) i ants g
  else (ants, g)

/-- Phase 3 of `update`: process every non-`mate` action and age every
ant, again as an index loop that re-reads the growing list's length
(eggs appended mid-loop are visited too).  `fuel` as in `phase2`. -/
def phase3 (p : Params) (gen : ℤ → ℤ → Cell) (asexId : ℕ → ℕ) (jitter : ℕ → ℚ) :
    ℕ → ℕ → List Ant → Grid → List Ant × Grid
  | 0, _, ants, g => (ants, g)
  | fuel + 1, i, ants, g =>
    if h : i < ants.length then
      phase3 p gen asexId jitter fuel (i + 1)
        (updateAt i (ageAnt p (jitter i)) (actPhase p gen asexId i ants g h).1)
        (actPhase p gen asexId i ants g h).2
    else (ants, g)

/-- The simulation state owned by one `Simulation` object. -/
structure SimState where
  ants : List Ant
  grid : Grid

/-- The list after phase 1 of a tick. -/
def tickAnts1 (O : Oracles) (s : SimState) : List Ant :=
  phase1 O.pick s.ants

/-- The list after phase 2 of a tick (the fuel provably suffices: at
most `max length maxAnts` iterations can happen). -/
def tickAnts2 (p : Params) (O : Oracles) (s : SimState) : List Ant :=
  phase2 p O.noiseW O.noiseB O.mateId
    ((tickAnts1 O s).length + p.maxAnts + 1) 0 (tickAnts1 O s) []

/-- List and grid after phase 3 of a tick. -/
def tickPhase3 (p : Params) (O : Oracles) (s : SimState) : List Ant × Grid :=
  phase3 p O.gen O.asexId O.jitter
    ((tickAnts2 p O s).length + p.maxAnts + 1) 0 (tickAnts2 p O s) s.grid

/-- The `Simulation.update()` tick: the four phases, ending with the two cull
filters (`health > 0`, then `stage !== "old"`). -/
def update (p : Params) (O : Oracles) (s : SimState) : SimState :=
  { ants := ((tickPhase3 p O s).1.filter (fun a => 0 < a.health)).filter
      (fun a => a.stage ≠ Stage.old)
    grid := (tickPhase3 p O s).2 }

/-! ### Basic lemmas -/

theorem sampleIndexAux_some_bounds (r : ℚ) :
    ∀ (ps : List ℚ) (i j : ℕ), sampleIndexAux r i ps = some j →
      i ≤ j ∧ j < i + ps.length := by
  intro ps
  induction ps generalizing r with
  | nil => intro i j h; simp [sampleIndexAux] at h
  | cons p ps ih =>
    intro i j h
    rw [sampleIndexAux] at h
    split at h
    · cases h; simp only [List.length_cons]; omega
    · have := ih (r - p) (i + 1) j h
      simp only [List.length_cons]
      omega

/-- C7: for every draw `r ∈ [0,1)` and probability vector summing to 1,
`sampleIndex` returns an index in `[0, length)`; and on the one-hot
vector `[1, 0, …, 0]` it returns index 0 for every such draw. -/
theorem sampleIndex_in_range_and_one_hot (r : ℚ) (h0 : 0 ≤ r) (h1 : r < 1)
    (probs : List ℚ) (hsum : probs.sum = 1) (n : ℕ) :
    (0 ≤ sampleIndex r probs ∧ sampleIndex r probs < probs.length) ∧
      sampleIndex r (1 :: List.replicate n 0) = 0 := by
  constructor
  · have hne : probs ≠ [] := by
      intro h; rw [h] at hsum; simp at hsum
    have hlen : 1 ≤ probs.length := by
      cases probs with
      | nil => exact absurd rfl hne
      | cons a l => simp
    cases h : sampleIndexAux r 0 probs with
    | none => simp only [sampleIndex, h]; omega
    | some j =>
      have := sampleIndexAux_some_bounds r probs 0 j h
      simp only [sampleIndex, h]
      omega
  · unfold sampleIndex
    rw [sampleIndexAux]
    have : r - 1 ≤ 0 := by linarith
    simp [this]

theorem sampleIndex_in_range_and_one_hot_witness :
    (0 ≤ sampleIndex (1/2) [1/2, 1/2] ∧
        sampleIndex (1/2) [1/2, 1/2] < ([(1 : ℚ)/2, 1/2] : List ℚ).length) ∧
      sampleIndex (1/2) (1 :: List.replicate 2 0) = 0 :=
  sampleIndex_in_range_and_one_hot (1/2) (by norm_num) (by norm_num)
    [1/2, 1/2] (by norm_num) 2

/-- C9 counterexample: `clearCell` on a coordinate classified `terrain` is
not a no-op — the stored classification changes to `empty`, refuting the
claim that `consumeFood` leaves the grid unchanged on non-`food`
cells. -/
theorem clearCell_changes_terrain_cell :
    gridGet (clearCell [((0, 0), Cell.terrain)] 0 0) 0 0 = some Cell.empty ∧
      gridGet [((0, 0), Cell.terrain)] 0 0 = some Cell.terrain := by
  constructor <;> rfl

/-- C9 amended: `clearCell(x, y)` unconditionally stores `empty` at
`(x, y)` — in particular `food` transitions to `empty`, but a `terrain`
cell is overwritten as well (no no-op guard); every other coordinate is
untouched. -/
theorem clearCell_always_empties (g : Grid) (x y x2 y2 : ℤ)
    (hne : ¬(x2 = x ∧ y2 = y)) :
    gridGet (clearCell g x y) x y = some Cell.empty ∧
      gridGet (clearCell g x y) x2 y2 = gridGet g x2 y2 := by
  constructor
  · simp [clearCell, gridGet]
  · have : ((x, y) : ℤ × ℤ) ≠ (x2, y2) := by
      intro h
      exact hne ⟨congrArg Prod.fst h |>.symm, congrArg Prod.snd h |>.symm⟩
    simp [clearCell, gridGet, this]

theorem clearCell_always_empties_witness :
    gridGet (clearCell [] 0 0) 0 0 = some Cell.empty ∧
      gridGet (clearCell [] 0 0) 1 0 = gridGet [] 1 0 :=
  clearCell_always_empties [] 0 0 1 0 (by decide)

/-- C8: an ant executing `eat` on a cell classified `food` gains health
(strictly, unless already at the cap 100), the cell becomes `empty`,
and a second `eat` on the now-empty cell changes nothing at all. -/
theorem eat_food_then_noop (p : Params) (gen : ℤ → ℤ → Cell) (nid : ℕ → ℕ)
    (a : Ant) (i : ℕ) (ants : List Ant) (g : Grid)
    (ha : a.nextAction = Action.eat)
    (hc : gridGet g a.x a.y = some Cell.food) :
    (processActionStep p gen nid a i ants g).1 =
        ants.set i { a with health := min 100 (a.health + 20) } ∧
      (a.health < 100 → a.health < min 100 (a.health + 20)) ∧
      gridGet (processActionStep p gen nid a i ants g).2 a.x a.y = some Cell.empty ∧
      processActionStep p gen nid { a with health := min 100 (a.health + 20) } i
          (processActionStep p gen nid a i ants g).1
          (processActionStep p gen nid a i ants g).2 =
        ((processActionStep p gen nid a i ants g).1,
          (processActionStep p gen nid a i ants g).2) := by
  have hstep : processActionStep p gen nid a i ants g =
      (ants.set i { a with health := min 100 (a.health + 20) },
        clearCell g a.x a.y) := by
    unfold processActionStep
    rw [ha]
    simp [isMove, getCellM, hc, clearCell]
  refine ⟨by rw [hstep], fun hlt => lt_min (by linarith) (by linarith), ?_, ?_⟩
  · rw [hstep]
    simp [clearCell, gridGet]
  · rw [hstep]
    unfold processActionStep
    simp [isMove, ha, getCellM, clearCell, gridGet]

theorem eat_food_then_noop_witness :
    (processActionStep defaultParams (fun _ _ => Cell.empty) (fun k => k)
          { x := 0, y := 0, age := 1, health := 50, stage := Stage.adult,
            stageAge := 1, id := 0, genome := ⟨[], []⟩, nextAction := Action.eat }
          0
          [{ x := 0, y := 0, age := 1, health := 50, stage := Stage.adult,
             stageAge := 1, id := 0, genome := ⟨[], []⟩, nextAction := Action.eat }]
          [((0, 0), Cell.food)]).1 =
        [{ x := 0, y := 0, age := 1, health := 50, stage := Stage.adult,
           stageAge := 1, id := 0, genome := ⟨[], []⟩,
           nextAction := Action.eat }].set 0
          { x := 0, y := 0, age := 1, health := min 100 (50 + 20),
            stage := Stage.adult, stageAge := 1, id := 0, genome := ⟨[], []⟩,
            nextAction := Action.eat } ∧
      ((50 : ℚ) < 100 → (50 : ℚ) < min 100 (50 + 20)) ∧
      gridGet (processActionStep defaultParams (fun _ _ => Cell.empty) (fun k => k)
          { x := 0, y := 0, age := 1, health := 50, stage := Stage.adult,
            stageAge := 1, id := 0, genome := ⟨[], []⟩, nextAction := Action.eat }
          0
          [{ x := 0, y := 0, age := 1, health := 50, stage := Stage.adult,
             stageAge := 1, id := 0, genome := ⟨[], []⟩, nextAction := Action.eat }]
          [((0, 0), Cell.food)]).2 0 0 = some Cell.empty ∧
      processActionStep defaultParams (fun _ _ => Cell.empty) (fun k => k)
          { x := 0, y := 0, age := 1, health := min 100 (50 + 20),
            stage := Stage.adult, stageAge := 1, id := 0, genome := ⟨[], []⟩,
            nextAction := Action.eat } 0
          (processActionStep defaultParams (fun _ _ => Cell.empty) (fun k => k)
            { x := 0, y := 0, age := 1, health := 50, stage := Stage.adult,
              stageAge := 1, id := 0, genome := ⟨[], []⟩, nextAction := Action.eat }
            0
            [{ x := 0, y := 0, age := 1, health := 50, stage := Stage.adult,
               stageAge := 1, id := 0, genome := ⟨[], []⟩, nextAction := Action.eat }]
            [((0, 0), Cell.food)]).1
          (processActionStep defaultParams (fun _ _ => Cell.empty) (fun k => k)
            { x := 0, y := 0, age := 1, health := 50, stage := Stage.adult,
              stageAge := 1, id := 0, genome := ⟨[], []⟩, nextAction := Action.eat }
            0
            [{ x := 0, y := 0, age := 1, health := 50, stage := Stage.adult,
               stageAge := 1, id := 0, genome := ⟨[], []⟩, nextAction := Action.eat }]
            [((0, 0), Cell.food)]).2 =
        ((processActionStep defaultParams (fun _ _ => Cell.empty) (fun k => k)
            { x := 0, y := 0, age := 1, health := 50, stage := Stage.adult,
              stageAge := 1, id := 0, genome := ⟨[], []⟩, nextAction := Action.eat }
            0
            [{ x := 0, y := 0, age := 1, health := 50, stage := Stage.adult,
               stageAge := 1, id := 0, genome := ⟨[], []⟩, nextAction := Action.eat }]
            [((0, 0), Cell.food)]).1,
          (processActionStep defaultParams (fun _ _ => Cell.empty) (fun k => k)
            { x := 0, y := 0, age := 1, health := 50, stage := Stage.adult,
              stageAge := 1, id := 0, genome := ⟨[], []⟩, nextAction := Action.eat }
            0
            [{ x := 0, y := 0, age := 1, health := 50, stage := Stage.adult,
               stageAge := 1, id := 0, genome := ⟨[], []⟩, nextAction := Action.eat }]
            [((0, 0), Cell.food)]).2) :=
  eat_food_then_noop defaultParams (fun _ _ => Cell.empty) (fun k => k) _ 0 _ _
    rfl rfl

theorem crossoverSelect_length (aL bL : List (List ℚ)) :
    (crossoverSelect aL bL).length = aL.length := by
  simp [crossoverSelect]

theorem crossoverSelect_getElem (aL bL : List (List ℚ)) (i : ℕ) (h : i < aL.length)
    (h2 : i < (crossoverSelect aL bL).length) :
    (crossoverSelect aL bL)[i] = if i % 2 = 0 then aL.getD i [] else bL.getD i [] := by
  simp [crossoverSelect]

theorem mutateLayers_length (gn : ℚ) (noise : ℕ → ℕ → ℚ) (L : List (List ℚ)) :
    (mutateLayers gn noise L).length = L.length := by
  simp [mutateLayers]

theorem getElem_mapIdx_of_lt {α β : Type} (l : List α) (f : ℕ → α → β) (i : ℕ)
    (h : i < l.length) (h2 : i < (l.mapIdx f).length) :
    (l.mapIdx f)[i] = f i l[i] := by
  have := List.get_mapIdx l f i h
  simpa using this

theorem mutateLayers_getElem (gn : ℚ) (noise : ℕ → ℕ → ℚ) (L : List (List ℚ))
    (i : ℕ) (h : i < L.length) (h2 : i < (mutateLayers gn noise L).length) :
    (mutateLayers gn noise L)[i] =
      L[i].mapIdx (fun j v => v + (noise i j - 1/2) * gn) := by
  simp only [mutateLayers] at h2 ⊢
  exact getElem_mapIdx_of_lt L _ i h h2

theorem noise_term_abs_le (gn r : ℚ) (hgn : 0 ≤ gn) (h0 : 0 ≤ r) (h1 : r < 1) :
    |(r - 1/2) * gn| ≤ gn / 2 := by
  rw [abs_le]
  constructor <;> nlinarith

theorem crossover_side_spec (gn : ℚ) (hgn : 0 ≤ gn) (noise : ℕ → ℕ → ℚ)
    (hn : ∀ i j, 0 ≤ noise i j ∧ noise i j < 1) (aL bL : List (List ℚ))
    (hshape : ∀ i, (aL.getD i []).length = (bL.getD i []).length) :
    (mutateLayers gn noise (crossoverSelect aL bL)).length = aL.length ∧
      (∀ i, ((mutateLayers gn noise (crossoverSelect aL bL)).getD i []).length =
        (aL.getD i []).length) ∧
      (∀ i j, i < aL.length → j < (aL.getD i []).length →
        |((mutateLayers gn noise (crossoverSelect aL bL)).getD i []).getD j 0 -
            ((if i % 2 = 0 then aL else bL).getD i []).getD j 0| ≤ gn / 2) := by
  have hlen : (mutateLayers gn noise (crossoverSelect aL bL)).length = aL.length := by
    rw [mutateLayers_length, crossoverSelect_length]
  have hlayer : ∀ i, i < aL.length →
      (mutateLayers gn noise (crossoverSelect aL bL)).getD i [] =
        ((if i % 2 = 0 then aL.getD i [] else bL.getD i []).mapIdx
          (fun j v => v + (noise i j - 1/2) * gn)) := by
    intro i hi
    have hi2 : i < (mutateLayers gn noise (crossoverSelect aL bL)).length := by omega
    have hi3 : i < (crossoverSelect aL bL).length := by
      rw [crossoverSelect_length]; exact hi
    rw [List.getD_eq_getElem _ _ hi2, mutateLayers_getElem _ _ _ i hi3 hi2,
      crossoverSelect_getElem _ _ i hi hi3]
  refine ⟨hlen, ?_, ?_⟩
  · intro i
    by_cases hi : i < aL.length
    · rw [hlayer i hi]
      rw [List.length_mapIdx]
      split
      · rfl
      · exact (hshape i).symm
    · rw [List.getD_eq_default _ _ (by omega), List.getD_eq_default _ _ (by omega)]
  · intro i j hi hj
    rw [hlayer i hi]
    have hj2 : j < (if i % 2 = 0 then aL.getD i [] else bL.getD i []).length := by
      split
      · exact hj
      · rw [← hshape i]; exact hj
    have hj3 : j < ((if i % 2 = 0 then aL.getD i [] else bL.getD i []).mapIdx
        (fun j v => v + (noise i j - 1/2) * gn)).length := by
      rw [List.length_mapIdx]; exact hj2
    rw [List.getD_eq_getElem _ _ hj3, getElem_mapIdx_of_lt _ _ j hj2 hj3]
    have hsel : ((if i % 2 = 0 then aL else bL).getD i []).getD j 0 =
        (if i % 2 = 0 then aL.getD i [] else bL.getD i []).getD j 0 := by
      split <;> rfl
    rw [hsel, List.getD_eq_getElem _ _ hj2]
    have : (if i % 2 = 0 then aL.getD i [] else bL.getD i [])[j] +
          (noise i j - 1/2) * gn -
          (if i % 2 = 0 then aL.getD i [] else bL.getD i [])[j] =
        (noise i j - 1/2) * gn := by ring
    rw [this]
    exact noise_term_abs_le gn (noise i j) hgn (hn i j).1 (hn i j).2

/-- C1: for parents with identical layer shapes, the crossover offspring
has the same layer shapes as both parents; layer `i` is taken from the
initiating parent when `i` is even and from the partner when odd; and
every offspring weight and bias lies within `genomeNoise / 2` of the
selected parent's corresponding value, given that each mutation draw is
a `Math.random()` value in `[0, 1)` and `genomeNoise ≥ 0`. -/
theorem crossover_shapes_and_bounds (gn : ℚ) (hgn : 0 ≤ gn) (nW nB : ℕ → ℕ → ℚ)
    (hW : ∀ i j, 0 ≤ nW i j ∧ nW i j < 1) (hB : ∀ i j, 0 ≤ nB i j ∧ nB i j < 1)
    (g₁ g₂ : Genome)
    (hwlen : g₁.weights.length = g₂.weights.length)
    (hwshape : ∀ i, (g₁.weights.getD i []).length = (g₂.weights.getD i []).length)
    (hblen : g₁.biases.length = g₂.biases.length)
    (hbshape : ∀ i, (g₁.biases.getD i []).length = (g₂.biases.getD i []).length) :
    ((crossover gn nW nB g₁ g₂).weights.length = g₁.weights.length ∧
        (crossover gn nW nB g₁ g₂).weights.length = g₂.weights.length ∧
        (crossover gn nW nB g₁ g₂).biases.length = g₁.biases.length ∧
        (crossover gn nW nB g₁ g₂).biases.length = g₂.biases.length) ∧
      (∀ i, (((crossover gn nW nB g₁ g₂).weights.getD i []).length =
            (g₁.weights.getD i []).length) ∧
          (((crossover gn nW nB g₁ g₂).biases.getD i []).length =
            (g₁.biases.getD i []).length)) ∧
      (∀ i j, i < g₁.weights.length → j < (g₁.weights.getD i []).length →
        |((crossover gn nW nB g₁ g₂).weights.getD i []).getD j 0 -
            ((if i % 2 = 0 then g₁.weights else g₂.weights).getD i []).getD j 0| ≤
          gn / 2) ∧
      (∀ i j, i < g₁.biases.length → j < (g₁.biases.getD i []).length →
        |((crossover gn nW nB g₁ g₂).biases.getD i []).getD j 0 -
            ((if i % 2 = 0 then g₁.biases else g₂.biases).getD i []).getD j 0| ≤
          gn / 2) := by
  obtain ⟨hw1, hw2, hw3⟩ := crossover_side_spec gn hgn nW hW g₁.weights g₂.weights hwshape
  obtain ⟨hb1, hb2, hb3⟩ := crossover_side_spec gn hgn nB hB g₁.biases g₂.biases hbshape
  have ew : (crossover gn nW nB g₁ g₂).weights =
      mutateLayers gn nW (crossoverSelect g₁.weights g₂.weights) := rfl
  have eb : (crossover gn nW nB g₁ g₂).biases =
      mutateLayers gn nB (crossoverSelect g₁.biases g₂.biases) := rfl
  rw [ew, eb]
  exact ⟨⟨hw1, by rw [hw1, hwlen], hb1, by rw [hb1, hblen]⟩,
    fun i => ⟨hw2 i, hb2 i⟩, hw3, hb3⟩

/-- A concrete initiating parent genome used by the crossover witness. -/
def cg1 : Genome := ⟨[[1, 2], [3]], [[4]]⟩

/-- A concrete partner genome with the same layer shapes as `cg1`. -/
def cg2 : Genome := ⟨[[5, 6], [7]], [[8]]⟩

theorem crossover_shapes_and_bounds_witness :
    ((crossover (1/10) (fun _ _ => 1/4) (fun _ _ => 3/4) cg1 cg2).weights.length =
          cg1.weights.length ∧
        (crossover (1/10) (fun _ _ => 1/4) (fun _ _ => 3/4) cg1 cg2).weights.length =
          cg2.weights.length ∧
        (crossover (1/10) (fun _ _ => 1/4) (fun _ _ => 3/4) cg1 cg2).biases.length =
          cg1.biases.length ∧
        (crossover (1/10) (fun _ _ => 1/4) (fun _ _ => 3/4) cg1 cg2).biases.length =
          cg2.biases.length) ∧
      (∀ i, ((crossover (1/10) (fun _ _ => 1/4) (fun _ _ => 3/4) cg1 cg2).weights.getD
              i []).length = (cg1.weights.getD i []).length ∧
          ((crossover (1/10) (fun _ _ => 1/4) (fun _ _ => 3/4) cg1 cg2).biases.getD
              i []).length = (cg1.biases.getD i []).length) ∧
      (∀ i j, i < cg1.weights.length → j < (cg1.weights.getD i []).length →
        |((crossover (1/10) (fun _ _ => 1/4) (fun _ _ => 3/4) cg1 cg2).weights.getD
              i []).getD j 0 -
            ((if i % 2 = 0 then cg1.weights else cg2.weights).getD i []).getD j 0| ≤
          (1/10) / 2) ∧
      (∀ i j, i < cg1.biases.length → j < (cg1.biases.getD i []).length →
        |((crossover (1/10) (fun _ _ => 1/4) (fun _ _ => 3/4) cg1 cg2).biases.getD
              i []).getD j 0 -
            ((if i % 2 = 0 then cg1.biases else cg2.biases).getD i []).getD j 0| ≤
          (1/10) / 2) :=
  crossover_shapes_and_bounds (1/10) (by norm_num) (fun _ _ => 1/4) (fun _ _ => 3/4)
    (fun _ _ => ⟨by norm_num, by norm_num⟩) (fun _ _ => ⟨by norm_num, by norm_num⟩)
    cg1 cg2 rfl
    (by intro i; match i with | 0 => rfl | 1 => rfl | n + 2 => rfl) rfl
    (by intro i; match i with | 0 => rfl | n + 1 => rfl)

theorem updateAt_length (i : ℕ) (f : Ant → Ant) (ants : List Ant) :
    (updateAt i f ants).length = ants.length := by
  unfold updateAt
  cases h : ants[i]? <;> simp [h]

theorem processActionStep_length (p : Params) (gen : ℤ → ℤ → Cell) (nid : ℕ → ℕ)
    (a : Ant) (i : ℕ) (ants : List Ant) (g : Grid) :
    (processActionStep p gen nid a i ants g).1.length = ants.length ∨
      ((processActionStep p gen nid a i ants g).1.length = ants.length + 1 ∧
        ants.length < p.maxAnts) := by
  unfold processActionStep
  split
  · split <;> simp
  · split
    · split
      · split
        · split <;> simp
        · simp
      · simp
    · split <;> simp
    · simp
    · split
      · right
        constructor
        · simp
        · assumption
      · simp
    · simp

theorem actPhase_length (p : Params) (gen : ℤ → ℤ → Cell) (nid : ℕ → ℕ)
    (i : ℕ) (ants : List Ant) (g : Grid) (h : i < ants.length) :
    (actPhase p gen nid i ants g h).1.length = ants.length ∨
      ((actPhase p gen nid i ants g h).1.length = ants.length + 1 ∧
        ants.length < p.maxAnts) := by
  unfold actPhase
  split
  · exact processActionStep_length p gen nid _ i ants g
  · left; rfl

theorem phase2_length_le (p : Params) (nW nB : ℕ → ℕ → ℕ → ℚ) (mid : ℕ → ℕ) :
    ∀ (fuel i : ℕ) (ants : List Ant) (mated : List ℕ),
      (phase2 p nW nB mid fuel i ants mated).length ≤ max ants.length p.maxAnts := by
  intro fuel
  induction fuel with
  | zero => intro i ants mated; exact le_max_left _ _
  | succ fuel ih =>
    intro i ants mated
    rw [phase2]
    split
    · split
      · split
        · split
          · refine le_trans (ih _ _ _) ?_
            have h1 : ants.length < p.maxAnts := by assumption
            simp only [List.length_append, List.length_cons, List.length_nil]
            rw [Nat.max_eq_right (by omega), Nat.max_eq_right (by omega)]
          · exact ih _ _ _
        · exact ih _ _ _
      · exact ih _ _ _
    · exact le_max_left _ _

theorem phase3_length_le (p : Params) (gen : ℤ → ℤ → Cell) (nid : ℕ → ℕ)
    (jitter : ℕ → ℚ) :
    ∀ (fuel i : ℕ) (ants : List Ant) (g : Grid),
      (phase3 p gen nid jitter fuel i ants g).1.length ≤ max ants.length p.maxAnts := by
  intro fuel
  induction fuel with
  | zero => intro i ants g; exact le_max_left _ _
  | succ fuel ih =>
    intro i ants g
    rw [phase3]
    split
    · refine le_trans (ih _ _ _) ?_
      rw [updateAt_length]
      rcases actPhase_length p gen nid i ants g (by assumption) with h1 | ⟨h1, h2⟩
      · rw [h1]
      · rw [h1, Nat.max_eq_right (by omega), Nat.max_eq_right (by omega)]
    · exact le_max_left _ _

theorem phase1_length (pick : ℕ → Ant → Action) (ants : List Ant) :
    (phase1 pick ants).length = ants.length := by
  simp [phase1]

/-- C4: the live population one tick later never exceeds
`max (starting population) maxAnts` — each reproduction path (mating in
phase 2, `asexual` in phase 3) tests `ants.length < maxAnts` before
pushing, so an insertion can only bring the count up to `maxAnts`; in
particular the population never exceeds `maxAnts` plus the organisms
already present when a cap check ran. -/
theorem update_population_cap (p : Params) (O : Oracles) (s : SimState) :
    (update p O s).ants.length ≤ max s.ants.length p.maxAnts ∧
      (update p O s).ants.length ≤ p.maxAnts + s.ants.length := by
  have h3 : (tickPhase3 p O s).1.length ≤ max (tickAnts2 p O s).length p.maxAnts :=
    phase3_length_le p O.gen O.asexId O.jitter _ 0 _ s.grid
  have h2 : (tickAnts2 p O s).length ≤ max (tickAnts1 O s).length p.maxAnts :=
    phase2_length_le p O.noiseW O.noiseB O.mateId _ 0 _ []
  have h1 : (tickAnts1 O s).length = s.ants.length := phase1_length O.pick s.ants
  have hf : (update p O s).ants.length ≤ (tickPhase3 p O s).1.length :=
    le_trans (List.length_filter_le _ _) (List.length_filter_le _ _)
  have hmax : max (tickAnts2 p O s).length p.maxAnts ≤ max s.ants.length p.maxAnts := by
    rcases Nat.le_total (tickAnts2 p O s).length p.maxAnts with hc | hc
    · rw [Nat.max_eq_right hc]
      exact le_max_right _ _
    · rw [Nat.max_eq_left hc]
      refine le_trans h2 ?_
      rw [h1]
  constructor
  · exact le_trans hf (le_trans h3 hmax)
  · refine le_trans (le_trans hf (le_trans h3 hmax)) ?_
    rcases Nat.le_total s.ants.length p.maxAnts with hd | hd
    · rw [Nat.max_eq_right hd]; omega
    · rw [Nat.max_eq_left hd]; omega

theorem getCellM_fst (g : Grid) (gen : ℤ → ℤ → Cell) (x y : ℤ) :
    (getCellM g gen x y).1 = getCellVal g gen x y := by
  unfold getCellM getCellVal
  cases gridGet g x y <;> rfl

theorem getCellVal_getCellM (g : Grid) (gen : ℤ → ℤ → Cell) (x2 y2 x y : ℤ) :
    getCellVal (getCellM g gen x2 y2).2 gen x y = getCellVal g gen x y := by
  unfold getCellM
  cases h : gridGet g x2 y2 with
  | some c => rfl
  | none =>
    have hx : gridGet (((x2, y2), gen x2 y2) :: g) x y =
        if ((x2, y2) : ℤ × ℤ) = (x, y) then some (gen x2 y2) else gridGet g x y := rfl
    unfold getCellVal
    rw [hx]
    by_cases he : ((x2, y2) : ℤ × ℤ) = (x, y)
    · rw [if_pos he]
      have hex : x2 = x := ((Prod.mk.injEq _ _ _ _).mp he).1
      have hey : y2 = y := ((Prod.mk.injEq _ _ _ _).mp he).2
      subst hex
      subst hey
      rw [h]
      rfl
    · rw [if_neg he]

/-- The per-cell value the amended claim describes: 2 when `getAntAt`
finds any organism there (the organism itself included), otherwise the
cell classification encoded as food 1, terrain 0, empty -1. -/
def amendedVisionValue (ants : List Ant) (g : Grid) (gen : ℤ → ℤ → Cell) (x y : ℤ) : ℤ :=
  if (getAntAt ants x y).isSome then 2
  else
    match getCellVal g gen x y with
    | Cell.food => 1
    | Cell.terrain => 0
    | Cell.empty => -1

/-- The per-cell value as the claim words it ("2 if occupied by another
organism"): 2 only when an organism other than the sensing one occupies
the cell.  Stated from the claim, for comparison with the source's
`processVision`. -/
def claimVisionValue (ants : List Ant) (a : Ant) (g : Grid) (gen : ℤ → ℤ → Cell)
    (x y : ℤ) : ℤ :=
  if ants.any (fun b => b.id ≠ a.id ∧ b.x = x ∧ b.y = y) then 2
  else
    match getCellVal g gen x y with
    | Cell.food => 1
    | Cell.terrain => 0
    | Cell.empty => -1

theorem processVision_foldl_spec (ants : List Ant) (gen : ℤ → ℤ → Cell) (a : Ant)
    (gref : Grid) :
    ∀ (L : List (ℤ × ℤ)) (v0 : List ℤ) (g2 : Grid),
      (∀ x y, getCellVal g2 gen x y = getCellVal gref gen x y) →
      (L.foldl
        (fun acc d =>
          ((acc.1 ++
              [if (getAntAt ants (a.x + d.1) (a.y + d.2)).isSome then (2 : ℤ)
                else
                  match (getCellM acc.2 gen (a.x + d.1) (a.y + d.2)).1 with
                  | Cell.food => 1
                  | Cell.terrain => 0
                  | Cell.empty => -1]),
            (getCellM acc.2 gen (a.x + d.1) (a.y + d.2)).2))
        (v0, g2)).1 =
        v0 ++ L.map (fun d => amendedVisionValue ants gref gen (a.x + d.1) (a.y + d.2)) := by
  intro L
  induction L with
  | nil => intro v0 g2 hg; simp
  | cons d L ih =>
    intro v0 g2 hg
    rw [List.foldl_cons, List.map_cons]
    have hv : (if (getAntAt ants (a.x + d.1) (a.y + d.2)).isSome then (2 : ℤ)
        else
          match (getCellM g2 gen (a.x + d.1) (a.y + d.2)).1 with
          | Cell.food => 1
          | Cell.terrain => 0
          | Cell.empty => -1) =
        amendedVisionValue ants gref gen (a.x + d.1) (a.y + d.2) := by
      rw [getCellM_fst, hg]
      rfl
    rw [hv]
    have hg2 : ∀ x y,
        getCellVal (getCellM g2 gen (a.x + d.1) (a.y + d.2)).2 gen x y =
          getCellVal gref gen x y := by
      intro x y
      rw [getCellVal_getCellM]
      exact hg x y
    rw [ih (v0 ++ [amendedVisionValue ants gref gen (a.x + d.1) (a.y + d.2)]) _ hg2]
    simp

/-- The concrete organism used by the C3 counterexample: alone in an
all-empty world. -/
def soloAnt : Ant :=
  { x := 0, y := 0, age := 10, health := 100, stage := Stage.adult, stageAge := 10,
    id := 0, genome := ⟨[], []⟩, nextAction := Action.none }

/-- C3 counterexample: for a lone adult on an all-empty grid, the source's
sensory vector carries 2 at the center index 4 — `getAntAt` finds the
organism itself — while the claim's encoding ("2 if occupied by another
organism", else empty ↦ -1) predicts -1 there. -/
theorem processVision_center_differs_from_claim :
    (processVision [soloAnt] [] (fun _ _ => Cell.empty) soloAnt).1.getD 4 0 = 2 ∧
      claimVisionValue [soloAnt] soloAnt [] (fun _ _ => Cell.empty)
        (soloAnt.x + 0) (soloAnt.y + 0) = -1 := by
  constructor
  · rfl
  · rfl

/-- C3 amended: for every non-egg organism, `processVision` builds the
9-element row-major vector over the 3×3 neighborhood where a cell
encodes 2 if `getAntAt` finds **any** organism there — the search does
not exclude the sensing organism, so the center cell always encodes 2
whenever the organism is in the live list — else food ↦ 1,
terrain ↦ 0, empty ↦ -1. -/
theorem processVision_amended (ants : List Ant) (g : Grid) (gen : ℤ → ℤ → Cell)
    (a : Ant) (hne : a.stage ≠ Stage.egg) :
    (processVision ants g gen a).1 =
        visionOffsets.map
          (fun d => amendedVisionValue ants g gen (a.x + d.1) (a.y + d.2)) ∧
      (processVision ants g gen a).1.length = 9 ∧
      (a ∈ ants → (processVision ants g gen a).1.getD 4 0 = 2) := by
  have hmain : (processVision ants g gen a).1 =
      visionOffsets.map
        (fun d => amendedVisionValue ants g gen (a.x + d.1) (a.y + d.2)) := by
    unfold processVision
    exact processVision_foldl_spec ants gen a g visionOffsets [] g (fun _ _ => rfl)
  refine ⟨hmain, by rw [hmain]; rfl, fun hmem => ?_⟩
  rw [hmain]
  have hc : amendedVisionValue ants g gen (a.x + 0) (a.y + 0) = 2 := by
    unfold amendedVisionValue
    have : (getAntAt ants (a.x + 0) (a.y + 0)).isSome := by
      unfold getAntAt
      rw [List.find?_isSome]
      exact ⟨a, hmem, by simp⟩
    rw [if_pos this]
  calc (visionOffsets.map
        (fun d => amendedVisionValue ants g gen (a.x + d.1) (a.y + d.2))).getD 4 0 =
      amendedVisionValue ants g gen (a.x + 0) (a.y + 0) := rfl
    _ = 2 := hc

theorem processVision_amended_witness :
    (processVision [soloAnt] [] (fun _ _ => Cell.empty) soloAnt).1 =
        visionOffsets.map
          (fun d => amendedVisionValue [soloAnt] [] (fun _ _ => Cell.empty)
            (soloAnt.x + d.1) (soloAnt.y + d.2)) ∧
      (processVision [soloAnt] [] (fun _ _ => Cell.empty) soloAnt).1.length = 9 ∧
      (soloAnt ∈ [soloAnt] →
        (processVision [soloAnt] [] (fun _ _ => Cell.empty) soloAnt).1.getD 4 0 = 2) :=
  processVision_amended [soloAnt] [] (fun _ _ => Cell.empty) soloAnt (by decide)

/-! ### Pointwise lemmas about the phase-3 step -/

theorem updateAt_getElem_self (i : ℕ) (f : Ant → Ant) (ants : List Ant) (a : Ant)
    (h : ants[i]? = some a) : (updateAt i f ants)[i]? = some (f a) := by
  have hlen : i < ants.length := (List.getElem?_eq_some_iff.mp h).1
  unfold updateAt
  rw [h]
  exact List.getElem?_set_self hlen

theorem updateAt_getElem_ne (i : ℕ) (f : Ant → Ant) (ants : List Ant) (j : ℕ)
    (hne : i ≠ j) : (updateAt i f ants)[j]? = ants[j]? := by
  unfold updateAt
  cases h : ants[i]? with
  | some a => exact List.getElem?_set_ne hne
  | none => rfl

/-- The stage after one aging pass, as a function of the incremented
`stageAge` and `age` (actions never change the stage, so this is the
whole stage evolution of a tick). -/
def stepStage (p : Params) (jit : ℚ) (st : Stage) (sa1 age1 : ℕ) : Stage :=
  if (if st = Stage.egg ∧ p.eggToAdultTicks ≤ sa1 then Stage.adult else st) = Stage.adult ∧
      p.antLifespan + jit ≤ (age1 : ℚ) then
    Stage.old
  else if st = Stage.egg ∧ p.eggToAdultTicks ≤ sa1 then Stage.adult else st

theorem ageAnt_eq (p : Params) (jit : ℚ) (a : Ant) :
    ageAnt p jit a =
      { a with
        age := a.age + 1
        stageAge := a.stageAge + 1
        health :=
          if a.stage = Stage.egg ∧ p.eggToAdultTicks ≤ a.stageAge + 1 then 100
          else a.health - 1
        stage := stepStage p jit a.stage (a.stageAge + 1) (a.age + 1) } := by
  simp only [ageAnt, stepStage]
  by_cases h1 : a.stage = Stage.egg ∧ p.eggToAdultTicks ≤ a.stageAge + 1
  · by_cases h2 : p.antLifespan + jit ≤ (a.age : ℚ) + 1
    · simp [h1, h2]
    · simp [h1, h2]
  · by_cases h2 : a.stage = Stage.adult ∧ p.antLifespan + jit ≤ (a.age : ℚ) + 1
    · simp [h1, h2]
    · simp [h1, h2]

theorem processActionStep_entry (p : Params) (gen : ℤ → ℤ → Cell) (nid : ℕ → ℕ)
    (a : Ant) (i : ℕ) (ants : List Ant) (g : Grid) (ha : ants[i]? = some a)
    (j : ℕ) (c : Ant)
    (hj : (processActionStep p gen nid a i ants g).1[j]? = some c) :
    (∃ orig, ants[j]? = some orig ∧ c.id = orig.id ∧ c.stage = orig.stage ∧
        c.age = orig.age ∧ c.stageAge = orig.stageAge ∧
        c.nextAction = orig.nextAction ∧ c.genome = orig.genome ∧
        (j ≠ i ∨ isMove a.nextAction = false → c.x = orig.x ∧ c.y = orig.y)) ∨
      (j = ants.length ∧ c = asexEgg a (nid i) ∧ ants.length < p.maxAnts ∧
        a.nextAction = Action.asexual ∧
        (processActionStep p gen nid a i ants g).1[i]? =
          some { a with health := a.health / 2 }) := by
  have hilen : i < ants.length := (List.getElem?_eq_some_iff.mp ha).1
  unfold processActionStep at hj ⊢
  split at hj
  · -- movement
    rename_i hmv
    split at hj
    · exact Or.inl ⟨c, hj, rfl, rfl, rfl, rfl, rfl, rfl, fun _ => ⟨rfl, rfl⟩⟩
    · by_cases hij : i = j
      · subst hij
        rw [List.getElem?_set_self hilen] at hj
        cases hj
        exact Or.inl ⟨a, ha, rfl, rfl, rfl, rfl, rfl, rfl,
          fun hor => hor.elim (fun h1 => absurd rfl h1)
            (fun h2 => by simp [hmv] at h2)⟩
      · rw [List.getElem?_set_ne hij] at hj
        exact Or.inl ⟨c, hj, rfl, rfl, rfl, rfl, rfl, rfl, fun _ => ⟨rfl, rfl⟩⟩
  · -- non-movement actions
    rename_i hnm
    split at hj
    · -- attack
      rename_i hact
      split at hj
      · split at hj
        · split at hj
          · -- egg target: set t then set i
            rename_i t heqT od tgt heqTgt hegg
            by_cases hij : i = j
            · subst hij
              rw [List.getElem?_set_self (by simpa using hilen)] at hj
              cases hj
              exact Or.inl ⟨a, ha, rfl, rfl, rfl, rfl, rfl, rfl, fun _ => ⟨rfl, rfl⟩⟩
            · rw [List.getElem?_set_ne hij] at hj
              by_cases htj : t = j
              · subst htj
                rw [List.getElem?_set_self (List.getElem?_eq_some_iff.mp heqTgt).1] at hj
                cases hj
                exact Or.inl ⟨tgt, heqTgt, rfl, rfl, rfl, rfl, rfl, rfl,
                  fun _ => ⟨rfl, rfl⟩⟩
              · rw [List.getElem?_set_ne htj] at hj
                exact Or.inl ⟨c, hj, rfl, rfl, rfl, rfl, rfl, rfl, fun _ => ⟨rfl, rfl⟩⟩
          · -- non-egg target: set t
            rename_i t heqT od tgt heqTgt hegg
            by_cases htj : t = j
            · subst htj
              rw [List.getElem?_set_self (List.getElem?_eq_some_iff.mp heqTgt).1] at hj
              cases hj
              exact Or.inl ⟨tgt, heqTgt, rfl, rfl, rfl, rfl, rfl, rfl,
                fun _ => ⟨rfl, rfl⟩⟩
            · rw [List.getElem?_set_ne htj] at hj
              exact Or.inl ⟨c, hj, rfl, rfl, rfl, rfl, rfl, rfl, fun _ => ⟨rfl, rfl⟩⟩
        · exact Or.inl ⟨c, hj, rfl, rfl, rfl, rfl, rfl, rfl, fun _ => ⟨rfl, rfl⟩⟩
      · exact Or.inl ⟨c, hj, rfl, rfl, rfl, rfl, rfl, rfl, fun _ => ⟨rfl, rfl⟩⟩
    · -- eat
      split at hj
      · by_cases hij : i = j
        · subst hij
          rw [List.getElem?_set_self hilen] at hj
          cases hj
          exact Or.inl ⟨a, ha, rfl, rfl, rfl, rfl, rfl, rfl, fun _ => ⟨rfl, rfl⟩⟩
        · rw [List.getElem?_set_ne hij] at hj
          exact Or.inl ⟨c, hj, rfl, rfl, rfl, rfl, rfl, rfl, fun _ => ⟨rfl, rfl⟩⟩
      · exact Or.inl ⟨c, hj, rfl, rfl, rfl, rfl, rfl, rfl, fun _ => ⟨rfl, rfl⟩⟩
    · -- sleep
      by_cases hij : i = j
      · subst hij
        rw [List.getElem?_set_self hilen] at hj
        cases hj
        exact Or.inl ⟨a, ha, rfl, rfl, rfl, rfl, rfl, rfl, fun _ => ⟨rfl, rfl⟩⟩
      · rw [List.getElem?_set_ne hij] at hj
        exact Or.inl ⟨c, hj, rfl, rfl, rfl, rfl, rfl, rfl, fun _ => ⟨rfl, rfl⟩⟩
    · -- asexual
      rename_i hact
      split at hj
      · rename_i hcap
        rcases Nat.lt_trichotomy j ants.length with hlt | heq | hgt
        · rw [List.getElem?_append_left (by simpa using hlt)] at hj
          by_cases hij : i = j
          · subst hij
            rw [List.getElem?_set_self hilen] at hj
            cases hj
            exact Or.inl ⟨a, ha, rfl, rfl, rfl, rfl, rfl, rfl, fun _ => ⟨rfl, rfl⟩⟩
          · rw [List.getElem?_set_ne hij] at hj
            exact Or.inl ⟨c, hj, rfl, rfl, rfl, rfl, rfl, rfl, fun _ => ⟨rfl, rfl⟩⟩
        · subst heq
          have he : (ants.set i { a with health := a.health / 2 } ++
              [asexEgg a (nid i)])[ants.length]? = some (asexEgg a (nid i)) := by
            have h2 := List.getElem?_concat_length
              (ants.set i { a with health := a.health / 2 }) (asexEgg a (nid i))
            simpa using h2
          rw [he] at hj
          cases hj
          refine Or.inr ⟨rfl, rfl, hcap, hact, ?_⟩
          rw [if_neg hnm, if_pos hcap]
          show (ants.set i { a with health := a.health / 2 } ++
            [asexEgg a (nid i)])[i]? = some { a with health := a.health / 2 }
          rw [List.getElem?_append_left (by simpa using hilen)]
          exact List.getElem?_set_self hilen
        · rw [List.getElem?_eq_none (by simp; omega)] at hj
          cases hj
      · exact Or.inl ⟨c, hj, rfl, rfl, rfl, rfl, rfl, rfl, fun _ => ⟨rfl, rfl⟩⟩
    · exact Or.inl ⟨c, hj, rfl, rfl, rfl, rfl, rfl, rfl, fun _ => ⟨rfl, rfl⟩⟩

theorem attackTargetIdx_ne_of_shadow (ants : List Ant) (x y : ℤ) (t : ℕ)
    (h : attackTargetIdx ants x y = some t) (j : ℕ) (cj : Ant)
    (hcj : ants[j]? = some cj)
    (hsh : ∃ k d, k < j ∧ ants[k]? = some d ∧ d.x = cj.x ∧ d.y = cj.y) :
    t ≠ j := by
  obtain ⟨k, d, hk, hd, hdx, hdy⟩ := hsh
  intro hEq
  subst hEq
  obtain ⟨c, hcmem, hc⟩ := List.exists_of_findSome?_eq_some h
  obtain ⟨htlen, hpt, hbelow⟩ := List.findIdx?_eq_some_iff_getElem.mp hc
  have hklen : k < ants.length := (List.getElem?_eq_some_iff.mp hd).1
  have hdval : ants[k] = d := by
    have h2 := List.getElem?_eq_getElem hklen
    rw [hd] at h2
    exact (Option.some.injEq _ _).mp h2.symm
  have htval : ants[t] = cj := by
    have h2 := List.getElem?_eq_getElem htlen
    rw [hcj] at h2
    exact (Option.some.injEq _ _).mp h2.symm
  have hpj2 : cj.x = c.1 ∧ cj.y = c.2 := by
    rw [htval] at hpt
    simpa using hpt
  have hpk : decide (ants[k].x = c.1 ∧ ants[k].y = c.2) = true := by
    rw [hdval]
    simp [hdx, hdy, hpj2.1, hpj2.2]
  exact hbelow k hk hpk

theorem processActionStep_shadowed (p : Params) (gen : ℤ → ℤ → Cell) (nid : ℕ → ℕ)
    (a : Ant) (i : ℕ) (ants : List Ant) (g : Grid) (j : ℕ) (cj : Ant)
    (hij : i ≠ j) (hcj : ants[j]? = some cj)
    (hsh : ∃ k d, k < j ∧ ants[k]? = some d ∧ d.x = cj.x ∧ d.y = cj.y) :
    (processActionStep p gen nid a i ants g).1[j]? = some cj := by
  have hjlen : j < ants.length := (List.getElem?_eq_some_iff.mp hcj).1
  unfold processActionStep
  split
  · split
    · exact hcj
    · rw [List.getElem?_set_ne hij]; exact hcj
  · split
    · -- attack
      split
      · split
        · split
          · rename_i t heqT od tgt heqTgt hegg
            have htj : t ≠ j := attackTargetIdx_ne_of_shadow ants a.x a.y t heqT j cj hcj hsh
            rw [List.getElem?_set_ne hij, List.getElem?_set_ne htj]
            exact hcj
          · rename_i t heqT od tgt heqTgt hegg
            have htj : t ≠ j := attackTargetIdx_ne_of_shadow ants a.x a.y t heqT j cj hcj hsh
            rw [List.getElem?_set_ne htj]
            exact hcj
        · exact hcj
      · exact hcj
    · split
      · rw [List.getElem?_set_ne hij]; exact hcj
      · exact hcj
    · rw [List.getElem?_set_ne hij]; exact hcj
    · split
      · rw [List.getElem?_append_left (by simpa using hjlen), List.getElem?_set_ne hij]
        exact hcj
      · exact hcj
    · exact hcj

theorem phase1_getElem (pick : ℕ → Ant → Action) (ants : List Ant) (j : ℕ) (orig : Ant)
    (h : ants[j]? = some orig) :
    (phase1 pick ants)[j]? =
      some { orig with
        nextAction := if orig.stage = Stage.egg then Action.none else pick j orig } := by
  have hjlen : j < ants.length := (List.getElem?_eq_some_iff.mp h).1
  have hjlen2 : j < (phase1 pick ants).length := by rw [phase1_length]; exact hjlen
  have hval : ants[j] = orig := by
    have h2 := List.getElem?_eq_getElem hjlen
    rw [h] at h2
    exact (Option.some.injEq _ _).mp h2.symm
  rw [List.getElem?_eq_getElem hjlen2]
  unfold phase1
  rw [getElem_mapIdx_of_lt ants _ j hjlen (by simpa [phase1] using hjlen2), hval]

theorem phase2_spec (p : Params) (nW nB : ℕ → ℕ → ℕ → ℚ) (mid : ℕ → ℕ) :
    ∀ (fuel i : ℕ) (ants : List Ant) (mated : List ℕ),
      (∀ j, j < ants.length →
        (phase2 p nW nB mid fuel i ants mated)[j]? = ants[j]?) ∧
      (∀ j c, ants.length ≤ j →
        (phase2 p nW nB mid fuel i ants mated)[j]? = some c →
        c.age = 0 ∧ c.stageAge = 0 ∧ c.health = 50 ∧ c.stage = Stage.egg ∧
          c.nextAction = Action.none ∧ (∃ k, c.id = mid k) ∧
          ∃ k2 d, k2 < j ∧ (phase2 p nW nB mid fuel i ants mated)[k2]? = some d ∧
            d.x = c.x ∧ d.y = c.y ∧ d.nextAction = Action.mate) := by
  intro fuel
  induction fuel with
  | zero =>
    intro i ants mated
    refine ⟨fun j hj => rfl, fun j c hge hj => ?_⟩
    rw [phase2] at hj
    have := (List.getElem?_eq_some_iff.mp hj).1
    omega
  | succ fuel ih =>
    intro i ants mated
    rw [phase2]
    split
    · rename_i hlt
      split
      · rename_i helig
        split
        · rename_i partner hpart
          split
          · -- push branch
            rename_i hcap
            obtain ⟨ih1, ih2⟩ := ih (i + 1)
              (ants ++ [mkMateEgg p (nW i) (nB i) (mid i) (ants.get ⟨i, hlt⟩) partner])
              (mated ++ [(ants.get ⟨i, hlt⟩).id, partner.id])
            constructor
            · intro j hj
              rw [ih1 j (by simp; omega), List.getElem?_append_left (by simpa using hj)]
            · intro j c hge hj
              rcases Nat.lt_or_ge j (ants.length + 1) with hj1 | hj1
              · -- j = ants.length : the egg pushed this step
                have hjeq : j = ants.length := by omega
                subst hjeq
                have hegg : (ants ++
                    [mkMateEgg p (nW i) (nB i) (mid i) (ants.get ⟨i, hlt⟩)
                      partner])[ants.length]? =
                    some (mkMateEgg p (nW i) (nB i) (mid i) (ants.get ⟨i, hlt⟩)
                      partner) :=
                  List.getElem?_concat_length _ _
                rw [ih1 ants.length (by simp), hegg] at hj
                cases hj
                refine ⟨rfl, rfl, rfl, rfl, rfl, ⟨i, rfl⟩, i, ants.get ⟨i, hlt⟩,
                  hlt, ?_, rfl, rfl, helig.1⟩
                rw [ih1 i (by simp; omega),
                  List.getElem?_append_left (by simpa using hlt)]
                exact List.getElem?_eq_getElem hlt
              · -- a later egg: the inductive hypothesis applies
                obtain ⟨h1, h2, h3, h4, h5, h6, k2, d, hk2, hd, hdx, hdy, hdm⟩ :=
                  ih2 j c (by simpa using hj1) hj
                exact ⟨h1, h2, h3, h4, h5, h6, k2, d, hk2, hd, hdx, hdy, hdm⟩
          · exact ih (i + 1) ants mated
        · exact ih (i + 1) ants mated
      · exact ih (i + 1) ants mated
    · refine ⟨fun j hj => rfl, fun j c hge hj => ?_⟩
      have := (List.getElem?_eq_some_iff.mp hj).1
      omega

theorem phase2_length_ge (p : Params) (nW nB : ℕ → ℕ → ℕ → ℚ) (mid : ℕ → ℕ)
    (fuel i : ℕ) (ants : List Ant) (mated : List ℕ) :
    ants.length ≤ (phase2 p nW nB mid fuel i ants mated).length := by
  rcases Nat.eq_zero_or_pos ants.length with h0 | h0
  · omega
  · have h1 := (phase2_spec p nW nB mid fuel i ants mated).1 (ants.length - 1) (by omega)
    have h2 : ants[ants.length - 1]? = some ants[ants.length - 1] :=
      List.getElem?_eq_getElem (by omega)
    rw [h2] at h1
    have := (List.getElem?_eq_some_iff.mp h1).1
    omega

theorem fuel_step (M len len2 fuel i : ℕ)
    (h : max len M + 1 ≤ fuel + 1 + i)
    (hl : len2 = len ∨ (len2 = len + 1 ∧ len < M)) :
    max len2 M + 1 ≤ fuel + (i + 1) := by
  rcases hl with h1 | ⟨h1, h2⟩
  · subst h1; omega
  · subst h1
    rw [Nat.max_eq_right (by omega)]
    rw [Nat.max_eq_right (by omega)] at h
    omega

theorem actPhase_entry (p : Params) (gen : ℤ → ℤ → Cell) (nid : ℕ → ℕ)
    (i : ℕ) (ants : List Ant) (g : Grid) (h : i < ants.length) (j : ℕ) (c : Ant)
    (hj : (actPhase p gen nid i ants g h).1[j]? = some c) :
    (∃ orig, ants[j]? = some orig ∧ c.id = orig.id ∧ c.stage = orig.stage ∧
        c.age = orig.age ∧ c.stageAge = orig.stageAge ∧
        c.nextAction = orig.nextAction ∧ c.genome = orig.genome ∧
        (j ≠ i ∨ isMove (ants.get ⟨i, h⟩).nextAction = false →
          c.x = orig.x ∧ c.y = orig.y)) ∨
      (j = ants.length ∧ c = asexEgg (ants.get ⟨i, h⟩) (nid i) ∧
        ants.length < p.maxAnts ∧
        (ants.get ⟨i, h⟩).nextAction = Action.asexual ∧
        (actPhase p gen nid i ants g h).1[i]? =
          some { ants.get ⟨i, h⟩ with health := (ants.get ⟨i, h⟩).health / 2 }) := by
  have ha : ants[i]? = some (ants.get ⟨i, h⟩) := by
    rw [List.getElem?_eq_getElem h, List.get_eq_getElem]
  by_cases hm : (ants.get ⟨i, h⟩).nextAction ≠ Action.mate
  · unfold actPhase at hj ⊢
    rw [if_pos hm] at hj ⊢
    exact processActionStep_entry p gen nid (ants.get ⟨i, h⟩) i ants g ha j c hj
  · unfold actPhase at hj ⊢
    rw [if_neg hm] at hj
    exact Or.inl ⟨c, hj, rfl, rfl, rfl, rfl, rfl, rfl, fun _ => ⟨rfl, rfl⟩⟩

theorem actPhase_shadowed (p : Params) (gen : ℤ → ℤ → Cell) (nid : ℕ → ℕ)
    (i : ℕ) (ants : List Ant) (g : Grid) (h : i < ants.length) (j : ℕ) (cj : Ant)
    (hij : i ≠ j) (hcj : ants[j]? = some cj)
    (hsh : ∃ k d, k < j ∧ ants[k]? = some d ∧ d.x = cj.x ∧ d.y = cj.y) :
    (actPhase p gen nid i ants g h).1[j]? = some cj := by
  unfold actPhase
  split
  · exact processActionStep_shadowed p gen nid (ants.get ⟨i, h⟩) i ants g j cj hij hcj hsh
  · exact hcj

theorem phase3_fields_frozen (p : Params) (gen : ℤ → ℤ → Cell) (nid : ℕ → ℕ)
    (jitter : ℕ → ℚ) :
    ∀ (fuel i : ℕ) (ants : List Ant) (g : Grid) (j : ℕ) (c : Ant),
      j < i → ants[j]? = some c →
      ∃ e, (phase3 p gen nid jitter fuel i ants g).1[j]? = some e ∧ e.id = c.id ∧
        e.stage = c.stage ∧ e.age = c.age ∧ e.stageAge = c.stageAge := by
  intro fuel
  induction fuel with
  | zero =>
    intro i ants g j c hji hj
    exact ⟨c, hj, rfl, rfl, rfl, rfl⟩
  | succ fuel ih =>
    intro i ants g j c hji hj
    rw [phase3]
    split
    · rename_i h
      have hjlen : j < ants.length := (List.getElem?_eq_some_iff.mp hj).1
      have hjlen2 : j < (actPhase p gen nid i ants g h).1.length := by
        rcases actPhase_length p gen nid i ants g h with h1 | ⟨h1, h2⟩ <;> omega
      obtain ⟨m, hm⟩ :=
        Option.isSome_iff_exists.mp (by
          rw [List.getElem?_eq_getElem hjlen2]; rfl :
          ((actPhase p gen nid i ants g h).1[j]?).isSome)
      rcases actPhase_entry p gen nid i ants g h j m hm with
        ⟨orig, horig, hid, hst, hag, hsa, hna, hgn, hxy⟩ | ⟨hjlen3, _⟩
      · have horig2 : orig = c := by
          rw [hj] at horig
          exact (Option.some.injEq _ _).mp horig.symm
        subst horig2
        have hij : i ≠ j := by omega
        have hm2 : (updateAt i (ageAnt p (jitter i))
            (actPhase p gen nid i ants g h).1)[j]? = some m := by
          rw [updateAt_getElem_ne i _ _ j hij]
          exact hm
        obtain ⟨e, he, hid2, hst2, hag2, hsa2⟩ := ih (i + 1) _ _ j m (by omega) hm2
        exact ⟨e, he, by rw [hid2, hid], by rw [hst2, hst], by rw [hag2, hag],
          by rw [hsa2, hsa]⟩
      · omega
    · exact ⟨c, hj, rfl, rfl, rfl, rfl⟩

theorem phase3_evolve (p : Params) (gen : ℤ → ℤ → Cell) (nid : ℕ → ℕ)
    (jitter : ℕ → ℚ) :
    ∀ (fuel i : ℕ) (ants : List Ant) (g : Grid) (j : ℕ) (c : Ant),
      max ants.length p.maxAnts + 1 ≤ fuel + i → i ≤ j → ants[j]? = some c →
      ∃ e, (phase3 p gen nid jitter fuel i ants g).1[j]? = some e ∧
        e.id = c.id ∧ e.age = c.age + 1 ∧ e.stageAge = c.stageAge + 1 ∧
        e.stage = stepStage p (jitter j) c.stage (c.stageAge + 1) (c.age + 1) := by
  intro fuel
  induction fuel with
  | zero =>
    intro i ants g j c hfuel hij hj
    have := (List.getElem?_eq_some_iff.mp hj).1
    have := Nat.le_max_left ants.length p.maxAnts
    omega
  | succ fuel ih =>
    intro i ants g j c hfuel hij hj
    rw [phase3]
    split
    · rename_i h
      have hjlen : j < ants.length := (List.getElem?_eq_some_iff.mp hj).1
      have hflen : (updateAt i (ageAnt p (jitter i))
          (actPhase p gen nid i ants g h).1).length = ants.length ∨
          ((updateAt i (ageAnt p (jitter i))
            (actPhase p gen nid i ants g h).1).length = ants.length + 1 ∧
            ants.length < p.maxAnts) := by
        rw [updateAt_length]
        exact actPhase_length p gen nid i ants g h
      have hfuel2 : max (updateAt i (ageAnt p (jitter i))
          (actPhase p gen nid i ants g h).1).length p.maxAnts + 1 ≤ fuel + (i + 1) :=
        fuel_step p.maxAnts ants.length _ fuel i hfuel hflen
      rcases Nat.lt_or_ge i j with hlt | hge
      · -- the step acts on an earlier index: fields of entry j are preserved
        have hjlen2 : j < (actPhase p gen nid i ants g h).1.length := by
          rcases actPhase_length p gen nid i ants g h with h1 | ⟨h1, h2⟩ <;> omega
        obtain ⟨m, hm⟩ :=
          Option.isSome_iff_exists.mp (by
            rw [List.getElem?_eq_getElem hjlen2]; rfl :
            ((actPhase p gen nid i ants g h).1[j]?).isSome)
        rcases actPhase_entry p gen nid i ants g h j m hm with
          ⟨orig, horig, hid, hst, hag, hsa, hna, hgn, hxy⟩ | ⟨hjlen3, _⟩
        · have horig2 : orig = c := by
            rw [hj] at horig
            exact (Option.some.injEq _ _).mp horig.symm
          subst horig2
          have hm2 : (updateAt i (ageAnt p (jitter i))
              (actPhase p gen nid i ants g h).1)[j]? = some m := by
            rw [updateAt_getElem_ne i _ _ j (by omega)]
            exact hm
          obtain ⟨e, he, hid2, hag2, hsa2, hst2⟩ :=
            ih (i + 1) _ _ j m hfuel2 (by omega) hm2
          refine ⟨e, he, by rw [hid2, hid], by rw [hag2, hag], by rw [hsa2, hsa], ?_⟩
          rw [hst2, hst, hag, hsa]
        · omega
      · -- i = j : this is the step that processes and ages the ant
        have hieq : i = j := by omega
        subst hieq
        have hget : ants.get ⟨i, h⟩ = c := by
          have h2 := List.getElem?_eq_getElem h
          rw [hj] at h2
          exact (Option.some.injEq _ _).mp h2.symm
        have hilen2 : i < (actPhase p gen nid i ants g h).1.length := by
          rcases actPhase_length p gen nid i ants g h with h1 | ⟨h1, h2⟩ <;> omega
        obtain ⟨m, hm⟩ :=
          Option.isSome_iff_exists.mp (by
            rw [List.getElem?_eq_getElem hilen2]; rfl :
            ((actPhase p gen nid i ants g h).1[i]?).isSome)
        rcases actPhase_entry p gen nid i ants g h i m hm with
          ⟨orig, horig, hid, hst, hag, hsa, hna, hgn, hxy⟩ | ⟨hjlen3, _⟩
        · have horig2 : orig = c := by
            rw [hj] at horig
            exact (Option.some.injEq _ _).mp horig.symm
          subst horig2
          have hm2 : (updateAt i (ageAnt p (jitter i))
              (actPhase p gen nid i ants g h).1)[i]? =
              some (ageAnt p (jitter i) m) :=
            updateAt_getElem_self i _ _ m hm
          obtain ⟨e, he, hid2, hst2, hag2, hsa2⟩ :=
            phase3_fields_frozen p gen nid jitter fuel (i + 1) _ _ i
              (ageAnt p (jitter i) m) (by omega) hm2
          have hfid : (ageAnt p (jitter i) m).id = m.id := by rw [ageAnt_eq]
          have hfage : (ageAnt p (jitter i) m).age = m.age + 1 := by rw [ageAnt_eq]
          have hfsa : (ageAnt p (jitter i) m).stageAge = m.stageAge + 1 := by
            rw [ageAnt_eq]
          have hfst : (ageAnt p (jitter i) m).stage =
              stepStage p (jitter i) m.stage (m.stageAge + 1) (m.age + 1) := by
            rw [ageAnt_eq]
          refine ⟨e, he, ?_, ?_, ?_, ?_⟩
          · rw [hid2, hfid, hid]
          · rw [hag2, hfage, hag]
          · rw [hsa2, hfsa, hsa]
          · rw [hst2, hfst, hst, hag, hsa]
        · omega
    · rename_i h
      have := (List.getElem?_eq_some_iff.mp hj).1
      omega

theorem phase3_shadowed_frozen (p : Params) (gen : ℤ → ℤ → Cell) (nid : ℕ → ℕ)
    (jitter : ℕ → ℚ) :
    ∀ (fuel i : ℕ) (ants : List Ant) (g : Grid) (j : ℕ) (cj : Ant),
      j < i → ants[j]? = some cj → isMove cj.nextAction = false →
      (∃ k d, k < j ∧ ants[k]? = some d ∧ d.x = cj.x ∧ d.y = cj.y ∧
        isMove d.nextAction = false) →
      (phase3 p gen nid jitter fuel i ants g).1[j]? = some cj := by
  intro fuel
  induction fuel with
  | zero => intro i ants g j cj hji hj hmv hsh; exact hj
  | succ fuel ih =>
    intro i ants g j cj hji hj hmv hsh
    rw [phase3]
    split
    · rename_i h
      obtain ⟨k, d, hk, hd, hdx, hdy, hdm⟩ := hsh
      have hij : i ≠ j := by omega
      have hik : i ≠ k := by omega
      have hstep1 : (actPhase p gen nid i ants g h).1[j]? = some cj :=
        actPhase_shadowed p gen nid i ants g h j cj hij hj ⟨k, d, hk, hd, hdx, hdy⟩
      have hstep2 : (updateAt i (ageAnt p (jitter i))
          (actPhase p gen nid i ants g h).1)[j]? = some cj := by
        rw [updateAt_getElem_ne i _ _ j hij]
        exact hstep1
      have hklen : k < ants.length := (List.getElem?_eq_some_iff.mp hd).1
      have hklen2 : k < (actPhase p gen nid i ants g h).1.length := by
        rcases actPhase_length p gen nid i ants g h with h1 | ⟨h1, h2⟩ <;> omega
      obtain ⟨d2, hd2⟩ :=
        Option.isSome_iff_exists.mp (by
          rw [List.getElem?_eq_getElem hklen2]; rfl :
          ((actPhase p gen nid i ants g h).1[k]?).isSome)
      rcases actPhase_entry p gen nid i ants g h k d2 hd2 with
        ⟨orig, horig, _, _, _, _, hna, _, hxy⟩ | ⟨hklen3, _⟩
      · have horig2 : orig = d := by
          rw [hd] at horig
          exact (Option.some.injEq _ _).mp horig.symm
        subst horig2
        have hd3 : (updateAt i (ageAnt p (jitter i))
            (actPhase p gen nid i ants g h).1)[k]? = some d2 := by
          rw [updateAt_getElem_ne i _ _ k hik]
          exact hd2
        obtain ⟨hx2, hy2⟩ := hxy (Or.inl (by omega))
        exact ih (i + 1) _ _ j cj (by omega) hstep2 hmv
          ⟨k, d2, hk, hd3, by rw [hx2, hdx], by rw [hy2, hdy], by rw [hna]; exact hdm⟩
      · omega
    · exact hj

theorem phase3_egg_aged (p : Params) (gen : ℤ → ℤ → Cell) (nid : ℕ → ℕ)
    (jitter : ℕ → ℚ) (hticks : 2 ≤ p.eggToAdultTicks) :
    ∀ (fuel i : ℕ) (ants : List Ant) (g : Grid) (j : ℕ) (c : Ant),
      max ants.length p.maxAnts + 1 ≤ fuel + i → i ≤ j → ants[j]? = some c →
      c.age = 0 → c.stageAge = 0 → c.health = 50 → c.stage = Stage.egg →
      c.nextAction = Action.none →
      (∃ k d, k < j ∧ ants[k]? = some d ∧ d.x = c.x ∧ d.y = c.y ∧
        isMove d.nextAction = false) →
      (phase3 p gen nid jitter fuel i ants g).1[j]? =
        some { c with age := 1, stageAge := 1, health := 49 } := by
  intro fuel
  induction fuel with
  | zero =>
    intro i ants g j c hfuel hij hj hag0 hsa0 hh50 hstg hna hsh
    have := (List.getElem?_eq_some_iff.mp hj).1
    have := Nat.le_max_left ants.length p.maxAnts
    omega
  | succ fuel ih =>
    intro i ants g j c hfuel hij hj hag0 hsa0 hh50 hstg hna hsh
    rw [phase3]
    split
    · rename_i h
      have hjlen : j < ants.length := (List.getElem?_eq_some_iff.mp hj).1
      have hfuel2 : max (updateAt i (ageAnt p (jitter i))
          (actPhase p gen nid i ants g h).1).length p.maxAnts + 1 ≤ fuel + (i + 1) := by
        refine fuel_step p.maxAnts ants.length _ fuel i hfuel ?_
        rw [updateAt_length]
        exact actPhase_length p gen nid i ants g h
      obtain ⟨k, d, hk, hd, hdx, hdy, hdm⟩ := hsh
      rcases Nat.lt_or_ge i j with hlt | hge
      · -- an earlier index acts: the egg is untouched (it is shadowed)
        have hij2 : i ≠ j := by omega
        have hstep1 : (actPhase p gen nid i ants g h).1[j]? = some c :=
          actPhase_shadowed p gen nid i ants g h j c hij2 hj ⟨k, d, hk, hd, hdx, hdy⟩
        have hstep2 : (updateAt i (ageAnt p (jitter i))
            (actPhase p gen nid i ants g h).1)[j]? = some c := by
          rw [updateAt_getElem_ne i _ _ j hij2]
          exact hstep1
        -- carry the shadow witness through the step
        have hklen : k < ants.length := (List.getElem?_eq_some_iff.mp hd).1
        have hklen2 : k < (actPhase p gen nid i ants g h).1.length := by
          rcases actPhase_length p gen nid i ants g h with h1 | ⟨h1, h2⟩ <;> omega
        obtain ⟨d2, hd2⟩ :=
          Option.isSome_iff_exists.mp (by
            rw [List.getElem?_eq_getElem hklen2]; rfl :
            ((actPhase p gen nid i ants g h).1[k]?).isSome)
        rcases actPhase_entry p gen nid i ants g h k d2 hd2 with
          ⟨orig, horig, _, _, _, _, hna2, _, hxy⟩ | ⟨hklen3, _⟩
        · have horig2 : orig = d := by
            rw [hd] at horig
            exact (Option.some.injEq _ _).mp horig.symm
          rw [horig2] at hna2 hxy
          by_cases hik : i = k
          · -- the shadow ant itself acts now; it does not move
            obtain ⟨hx2, hy2⟩ := hxy (Or.inr (by
              subst hik
              have hget : ants.get ⟨i, h⟩ = d := by
                have h2 := List.getElem?_eq_getElem h
                rw [hd] at h2
                exact (Option.some.injEq _ _).mp h2.symm
              rw [hget]
              exact hdm))
            have hd3 : (updateAt i (ageAnt p (jitter i))
                (actPhase p gen nid i ants g h).1)[k]? =
                some (ageAnt p (jitter i) d2) := by
              subst hik
              exact updateAt_getElem_self i _ _ d2 hd2
            have hagefacts : (ageAnt p (jitter i) d2).x = d2.x ∧
                (ageAnt p (jitter i) d2).y = d2.y ∧
                (ageAnt p (jitter i) d2).nextAction = d2.nextAction := by
              rw [ageAnt_eq]
              exact ⟨rfl, rfl, rfl⟩
            refine ih (i + 1) _ _ j c hfuel2 (by omega) hstep2 hag0 hsa0 hh50 hstg hna
              ⟨k, ageAnt p (jitter i) d2, hk, hd3, ?_, ?_, ?_⟩
            · rw [hagefacts.1, hx2, hdx]
            · rw [hagefacts.2.1, hy2, hdy]
            · rw [hagefacts.2.2, hna2]
              exact hdm
          · obtain ⟨hx2, hy2⟩ := hxy (Or.inl (fun he => hik he.symm))
            have hd3 : (updateAt i (ageAnt p (jitter i))
                (actPhase p gen nid i ants g h).1)[k]? = some d2 := by
              rw [updateAt_getElem_ne i _ _ k hik]
              exact hd2
            exact ih (i + 1) _ _ j c hfuel2 (by omega) hstep2 hag0 hsa0 hh50 hstg hna
              ⟨k, d2, hk, hd3, by rw [hx2, hdx], by rw [hy2, hdy],
                by rw [hna2]; exact hdm⟩
        · omega
      · -- i = j : the egg's own step; it does nothing and is aged
        have hieq : i = j := by omega
        subst hieq
        have hget : ants.get ⟨i, h⟩ = c := by
          have h2 := List.getElem?_eq_getElem h
          rw [hj] at h2
          exact (Option.some.injEq _ _).mp h2.symm
        have hA : (actPhase p gen nid i ants g h).1 = ants := by
          unfold actPhase
          rw [hget, hna]
          rw [if_pos (by simp)]
          unfold processActionStep
          rw [hna]
          simp [isMove]
        have haged : ageAnt p (jitter i) c =
            { c with age := 1, stageAge := 1, health := 49 } := by
          rw [ageAnt_eq]
          have hcond : ¬(c.stage = Stage.egg ∧ p.eggToAdultTicks ≤ c.stageAge + 1) := by
            rw [hsa0]
            intro hcc
            omega
          have hstep : stepStage p (jitter i) c.stage (c.stageAge + 1) (c.age + 1) =
              c.stage := by
            unfold stepStage
            rw [hstg, hsa0, hag0]
            have hc2 : ¬(p.eggToAdultTicks ≤ 0 + 1) := by omega
            simp [hc2]
          rw [if_neg hcond, hstep, hag0, hsa0, hh50]
          norm_num
        have hstep2 : (updateAt i (ageAnt p (jitter i))
            (actPhase p gen nid i ants g h).1)[i]? =
            some { c with age := 1, stageAge := 1, health := 49 } := by
          rw [hA]
          rw [← haged]
          exact updateAt_getElem_self i _ _ c hj
        refine phase3_shadowed_frozen p gen nid jitter fuel (i + 1) _ _ i _
          (by omega) hstep2 (by change isMove c.nextAction = false; rw [hna]; rfl) ?_
        refine ⟨k, d, hk, ?_, hdx, hdy, hdm⟩
        rw [updateAt_getElem_ne i _ _ k (by omega), hA]
        exact hd
    · rename_i h
      have := (List.getElem?_eq_some_iff.mp hj).1
      omega

theorem phase3_new_entries (p : Params) (gen : ℤ → ℤ → Cell) (nid : ℕ → ℕ)
    (jitter : ℕ → ℚ) (hticks : 2 ≤ p.eggToAdultTicks) :
    ∀ (fuel i : ℕ) (ants : List Ant) (g : Grid) (j : ℕ) (c : Ant),
      max ants.length p.maxAnts + 1 ≤ fuel + i → ants.length ≤ j →
      (phase3 p gen nid jitter fuel i ants g).1[j]? = some c →
      c.age = 1 ∧ c.stageAge = 1 ∧ c.health = 49 ∧ c.stage = Stage.egg ∧
        ∃ k, c.id = nid k := by
  intro fuel
  induction fuel with
  | zero =>
    intro i ants g j c hfuel hge hj
    rw [phase3] at hj
    have h2 : j < ((ants, g) : List Ant × Grid).1.length :=
      (List.getElem?_eq_some_iff.mp hj).1
    simp at h2
    omega
  | succ fuel ih =>
    intro i ants g j c hfuel hge hj
    rw [phase3] at hj
    split at hj
    · rename_i h
      have hfuel2 : max (updateAt i (ageAnt p (jitter i))
          (actPhase p gen nid i ants g h).1).length p.maxAnts + 1 ≤ fuel + (i + 1) := by
        refine fuel_step p.maxAnts ants.length _ fuel i hfuel ?_
        rw [updateAt_length]
        exact actPhase_length p gen nid i ants g h
      rcases Nat.lt_or_ge j (updateAt i (ageAnt p (jitter i))
          (actPhase p gen nid i ants g h).1).length with hlt | hge2
      · -- j is the egg appended by this very step
        have hlen2 : (updateAt i (ageAnt p (jitter i))
            (actPhase p gen nid i ants g h).1).length = ants.length + 1 ∧
            ants.length < p.maxAnts := by
          rw [updateAt_length]
          rw [updateAt_length] at hlt
          rcases actPhase_length p gen nid i ants g h with h1 | h1
          · omega
          · exact h1
        have hjeq : j = ants.length := by omega
        subst hjeq
        have hjlen3 : ants.length < (actPhase p gen nid i ants g h).1.length := by
          have := hlen2.1
          rw [updateAt_length] at this
          omega
        obtain ⟨m, hm⟩ :=
          Option.isSome_iff_exists.mp (by
            rw [List.getElem?_eq_getElem hjlen3]; rfl :
            ((actPhase p gen nid i ants g h).1[ants.length]?).isSome)
        rcases actPhase_entry p gen nid i ants g h ants.length m hm with
          ⟨orig, horig, _⟩ | ⟨hjl, hmegg, hcap, hact, hactor⟩
        · have := (List.getElem?_eq_some_iff.mp horig).1
          omega
        · -- the asexual egg: shadowed by its (non-moving) parent at index i
          have hm2 : (updateAt i (ageAnt p (jitter i))
              (actPhase p gen nid i ants g h).1)[ants.length]? = some m := by
            rw [updateAt_getElem_ne i _ _ ants.length (by omega)]
            exact hm
          have hactor2 : (updateAt i (ageAnt p (jitter i))
              (actPhase p gen nid i ants g h).1)[i]? =
              some (ageAnt p (jitter i)
                { ants.get ⟨i, h⟩ with health := (ants.get ⟨i, h⟩).health / 2 }) :=
            updateAt_getElem_self i _ _ _ hactor
          have hffin := phase3_egg_aged p gen nid jitter hticks fuel (i + 1)
            (updateAt i (ageAnt p (jitter i)) (actPhase p gen nid i ants g h).1)
            (actPhase p gen nid i ants g h).2
            ants.length m hfuel2 (by omega) hm2
            (by rw [hmegg]; rfl) (by rw [hmegg]; rfl) (by rw [hmegg]; rfl)
            (by rw [hmegg]; rfl) (by rw [hmegg]; rfl)
            ⟨i, _, by omega, hactor2, by
              rw [ageAnt_eq, hmegg]; rfl, by
              rw [ageAnt_eq, hmegg]; rfl, by
              rw [ageAnt_eq]
              show isMove (ants.get ⟨i, h⟩).nextAction = false
              rw [hact]
              rfl⟩
          rw [hffin] at hj
          have hc : c = { m with age := 1, stageAge := 1, health := 49 } :=
            ((Option.some.injEq _ _).mp hj).symm
          subst hc
          refine ⟨rfl, rfl, rfl, by rw [hmegg]; rfl, i, by rw [hmegg]; rfl⟩
      · exact ih (i + 1) _ _ j c hfuel2 hge2 hj
    · have h2 : j < ((ants, g) : List Ant × Grid).1.length :=
        (List.getElem?_eq_some_iff.mp hj).1
      simp at h2
      omega

theorem phase3_new_ids (p : Params) (gen : ℤ → ℤ → Cell) (nid : ℕ → ℕ)
    (jitter : ℕ → ℚ) :
    ∀ (fuel i : ℕ) (ants : List Ant) (g : Grid) (j : ℕ) (c : Ant),
      max ants.length p.maxAnts + 1 ≤ fuel + i → ants.length ≤ j →
      (phase3 p gen nid jitter fuel i ants g).1[j]? = some c →
      ∃ k, c.id = nid k := by
  intro fuel
  induction fuel with
  | zero =>
    intro i ants g j c hfuel hge hj
    rw [phase3] at hj
    have h2 : j < ((ants, g) : List Ant × Grid).1.length :=
      (List.getElem?_eq_some_iff.mp hj).1
    simp at h2
    omega
  | succ fuel ih =>
    intro i ants g j c hfuel hge hj
    rw [phase3] at hj
    split at hj
    · rename_i h
      have hfuel2 : max (updateAt i (ageAnt p (jitter i))
          (actPhase p gen nid i ants g h).1).length p.maxAnts + 1 ≤ fuel + (i + 1) := by
        refine fuel_step p.maxAnts ants.length _ fuel i hfuel ?_
        rw [updateAt_length]
        exact actPhase_length p gen nid i ants g h
      rcases Nat.lt_or_ge j (updateAt i (ageAnt p (jitter i))
          (actPhase p gen nid i ants g h).1).length with hlt | hge2
      · have hlen2 : (updateAt i (ageAnt p (jitter i))
            (actPhase p gen nid i ants g h).1).length = ants.length + 1 ∧
            ants.length < p.maxAnts := by
          rw [updateAt_length]
          rw [updateAt_length] at hlt
          rcases actPhase_length p gen nid i ants g h with h1 | h1
          · omega
          · exact h1
        have hjeq : j = ants.length := by omega
        subst hjeq
        have hjlen3 : ants.length < (actPhase p gen nid i ants g h).1.length := by
          have := hlen2.1
          rw [updateAt_length] at this
          omega
        obtain ⟨m, hm⟩ :=
          Option.isSome_iff_exists.mp (by
            rw [List.getElem?_eq_getElem hjlen3]; rfl :
            ((actPhase p gen nid i ants g h).1[ants.length]?).isSome)
        rcases actPhase_entry p gen nid i ants g h ants.length m hm with
          ⟨orig, horig, _⟩ | ⟨hjl, hmegg, hcap, hact, hactor⟩
        · have := (List.getElem?_eq_some_iff.mp horig).1
          omega
        · have hm2 : (updateAt i (ageAnt p (jitter i))
              (actPhase p gen nid i ants g h).1)[ants.length]? = some m := by
            rw [updateAt_getElem_ne i _ _ ants.length (by omega)]
            exact hm
          obtain ⟨e, he, hid, _, _, _⟩ := phase3_evolve p gen nid jitter fuel (i + 1)
            (updateAt i (ageAnt p (jitter i)) (actPhase p gen nid i ants g h).1)
            (actPhase p gen nid i ants g h).2 ants.length m hfuel2 (by omega) hm2
          rw [he] at hj
          have hc : c = e := ((Option.some.injEq _ _).mp hj).symm
          subst hc
          exact ⟨i, by rw [hid, hmegg]; rfl⟩
      · exact ih (i + 1) _ _ j c hfuel2 hge2 hj
    · have h2 : j < ((ants, g) : List Ant × Grid).1.length :=
        (List.getElem?_eq_some_iff.mp hj).1
      simp at h2
      omega

theorem stepStage_old (p : Params) (jit : ℚ) (sa1 age1 : ℕ)
    (hc : p.antLifespan + jit ≤ (age1 : ℚ)) :
    stepStage p jit Stage.adult sa1 age1 = Stage.old := by
  unfold stepStage
  simp [hc]

/-- A small parameter record used by the concrete scenarios (the claims
are parametric in `params`; a small `maxAnts` keeps the loop bounds
short). -/
def p5 : Params :=
  { antLifespan := 500, maxAnts := 5, maxAntHealth := 100, eggToAdultTicks := 50,
    genomeNoise := 1/10 }

/-- A one-layer genome for concrete scenarios. -/
def g10 : Genome := ⟨[[0]], [[0]]⟩

/-- An adult one tick short of `antLifespan`. -/
def c2Ant : Ant :=
  { x := 0, y := 0, age := 499, health := 100, stage := Stage.adult, stageAge := 499,
    id := 7, genome := g10, nextAction := Action.none }

/-- Oracles whose lifespan jitter draw is positive:
`(0.7 - 0.5) * 0.05 = 1/100`, a legal `Math.random()` outcome. -/
def c2Oracles : Oracles :=
  { pick := fun _ _ => Action.sleep
    noiseW := fun _ _ _ => 1/2
    noiseB := fun _ _ _ => 1/2
    mateId := fun k => 100 + k
    asexId := fun k => 200 + k
    jitter := fun _ => 1/100
    gen := fun _ _ => Cell.empty }

/-- The c2 ant after phase 1 (decided `sleep`). -/
def c2a1 : Ant := { c2Ant with nextAction := Action.sleep }

/-- The c2 ant after its sleep action. -/
def c2a2 : Ant := { c2a1 with health := min 100 (100 + 5) }

/-- The c2 ant at the end of phase 3: aged once, still an adult because
`500 < 500 + 1/100`. -/
def c2a3 : Ant := { c2a2 with age := 500, stageAge := 500, health := min 100 (100 + 5) - 1 }

/-- C2 counterexample: an adult with `age = antLifespan - 1` ticks once
while the lifespan jitter draw is positive (`(0.7 - 0.5) * 0.05`), stays
an adult (`500 < 500 + 1/100`), and is **not** removed — the population
still holds it afterwards, refuting the claim that such an adult is
always removed in that tick. -/
theorem adult_at_lifespan_minus_one_survives :
    c2Ant.stage = Stage.adult ∧ (c2Ant.age : ℚ) = p5.antLifespan - 1 ∧
      c2Oracles.jitter 0 = (7/10 - 1/2) * (5/100) ∧
      (update p5 c2Oracles ⟨[c2Ant], []⟩).ants.length = 1 ∧
      ∀ b ∈ (update p5 c2Oracles ⟨[c2Ant], []⟩).ants,
        b.id = c2Ant.id ∧ b.stage = Stage.adult := by
  have h2 : tickAnts2 p5 c2Oracles ⟨[c2Ant], []⟩ = [c2a1] := rfl
  have hlt : (0 : ℕ) < ([c2a1] : List Ant).length := by norm_num
  have hact : actPhase p5 c2Oracles.gen c2Oracles.asexId 0 [c2a1] [] hlt =
      ([c2a2], []) := rfl
  have hcast : ((c2a2.age + 1 : ℕ) : ℚ) = 500 := by norm_num [c2a2, c2a1, c2Ant]
  have haged : ageAnt p5 (c2Oracles.jitter 0) c2a2 = c2a3 := by
    rw [ageAnt_eq]
    have e1 : c2a2.stage = Stage.adult := rfl
    have hcond : ¬(c2a2.stage = Stage.egg ∧ p5.eggToAdultTicks ≤ c2a2.stageAge + 1) := by
      rw [e1]
      simp
    have hss : stepStage p5 (c2Oracles.jitter 0) c2a2.stage (c2a2.stageAge + 1)
        (c2a2.age + 1) = Stage.adult := by
      unfold stepStage
      rw [e1, hcast]
      have hle : ¬(p5.antLifespan + c2Oracles.jitter 0 ≤ (500 : ℚ)) := by
        norm_num [p5, c2Oracles]
      simp [hle]
    rw [if_neg hcond, hss]
    show ({ c2a2 with
              age := c2a2.age + 1, stageAge := c2a2.stageAge + 1,
              health := c2a2.health - 1, stage := c2a2.stage } : Ant) = c2a3
    have e2 : c2a2.age + 1 = 500 := rfl
    have e3 : c2a2.stageAge + 1 = 500 := rfl
    rw [e1, e2, e3]
    rfl
  have h3 : tickPhase3 p5 c2Oracles ⟨[c2Ant], []⟩ = ([c2a3], []) := by
    unfold tickPhase3
    rw [h2]
    show phase3 p5 c2Oracles.gen c2Oracles.asexId c2Oracles.jitter (6 + 1) 0
      [c2a1] [] = ([c2a3], [])
    rw [phase3, dif_pos hlt, hact]
    show phase3 p5 c2Oracles.gen c2Oracles.asexId c2Oracles.jitter (5 + 1) 1
      (updateAt 0 (ageAnt p5 (c2Oracles.jitter 0)) [c2a2]) [] = ([c2a3], [])
    have hupd : updateAt 0 (ageAnt p5 (c2Oracles.jitter 0)) [c2a2] =
        [ageAnt p5 (c2Oracles.jitter 0) c2a2] := rfl
    rw [hupd, haged, phase3, dif_neg (by norm_num)]
  have hfil : (update p5 c2Oracles ⟨[c2Ant], []⟩).ants = [c2a3] := by
    unfold update
    rw [h3]
    have hh : (0 : ℚ) < c2a3.health := by
      have hm : min (100 : ℚ) (100 + 5) = 100 := min_eq_left (by norm_num)
      show (0 : ℚ) < min 100 (100 + 5) - 1
      rw [hm]
      norm_num
    have hso : ¬c2a3.stage = Stage.old := by decide
    simp [List.filter_cons, hh, hso]
  refine ⟨rfl, by norm_num [c2Ant, p5], by norm_num [c2Oracles], ?_, ?_⟩
  · rw [hfil]
    rfl
  · rw [hfil]
    intro b hb
    have : b = c2a3 := by simpa using hb
    subst this
    exact ⟨rfl, rfl⟩

/-- C2 amended: an adult is removed in the tick in which its incremented
age reaches `antLifespan` **plus that tick's jitter draw** — with
`age = antLifespan - 1` this holds whenever the draw
`(Math.random() - 0.5) * 0.05` is at most 0, but can fail for a positive
draw (see the counterexample).  Under that corrected condition, one
`update` turns the organism `old` and removes it: no organism with its id
survives the tick (fresh-id hypotheses say no other organism or new egg
shares its id). -/
theorem adult_reaching_lifespan_removed (p : Params) (O : Oracles) (s : SimState)
    (i : ℕ) (a : Ant) (hi : s.ants[i]? = some a) (hstage : a.stage = Stage.adult)
    (hage : p.antLifespan + O.jitter i ≤ (a.age : ℚ) + 1)
    (hfresh : ∀ j b, s.ants[j]? = some b → j ≠ i → b.id ≠ a.id)
    (hm : ∀ k, O.mateId k ≠ a.id) (hx : ∀ k, O.asexId k ≠ a.id) :
    ∀ b ∈ (update p O s).ants, b.id ≠ a.id := by
  intro b hb
  have h1 := List.mem_filter.mp hb
  have hnotold : b.stage ≠ Stage.old := by simpa using h1.2
  have h2 := List.mem_filter.mp h1.1
  obtain ⟨j, hj⟩ := List.mem_iff_getElem?.mp h2.1
  have hn1 : (tickAnts1 O s).length = s.ants.length := phase1_length O.pick s.ants
  have hadq : max (tickAnts2 p O s).length p.maxAnts + 1 ≤
      ((tickAnts2 p O s).length + p.maxAnts + 1) + 0 := by
    have := Nat.max_le.mpr
      ⟨Nat.le_add_right (tickAnts2 p O s).length p.maxAnts,
        Nat.le_add_left p.maxAnts (tickAnts2 p O s).length⟩
    omega
  unfold tickPhase3 at hj
  rcases Nat.lt_or_ge j (tickAnts2 p O s).length with hlt | hge2
  · have hj0 : (tickAnts2 p O s)[j]? = some ((tickAnts2 p O s)[j]) :=
      List.getElem?_eq_getElem hlt
    obtain ⟨e, he, hid, hag, hsa, hst⟩ := phase3_evolve p O.gen O.asexId O.jitter
      ((tickAnts2 p O s).length + p.maxAnts + 1) 0 (tickAnts2 p O s) s.grid j
      ((tickAnts2 p O s)[j]) hadq (Nat.zero_le j) hj0
    rw [he] at hj
    have heb : e = b := (Option.some.injEq _ _).mp hj
    subst heb
    rcases Nat.lt_or_ge j s.ants.length with hj1 | hj1
    · -- entry j descends from an organism present at tick start
      have hor : s.ants[j]? = some (s.ants[j]) := List.getElem?_eq_getElem hj1
      have hph1 := phase1_getElem O.pick s.ants j (s.ants[j]) hor
      have hph2 : (tickAnts2 p O s)[j]? = (tickAnts1 O s)[j]? := by
        unfold tickAnts2
        exact (phase2_spec p O.noiseW O.noiseB O.mateId
          ((tickAnts1 O s).length + p.maxAnts + 1) 0 (tickAnts1 O s) []).1 j
          (by omega)
      have hc0 : (tickAnts2 p O s)[j] =
          { s.ants[j] with
              nextAction := if (s.ants[j]).stage = Stage.egg then Action.none
                else O.pick j (s.ants[j]) } := by
        have := hj0
        rw [hph2] at this
        unfold tickAnts1 at this
        rw [hph1] at this
        exact (Option.some.injEq _ _).mp this.symm
      by_cases hij : j = i
      · subst hij
        have hsa2 : s.ants[j] = a := by
          rw [hi] at hor
          exact (Option.some.injEq _ _).mp hor.symm
        have hbstage : e.stage = Stage.old := by
          rw [hst, hc0, hsa2]
          have hcc : ({ a with
              nextAction := if a.stage = Stage.egg then Action.none
                else O.pick j a } : Ant).stage = Stage.adult := hstage
          rw [hcc]
          refine stepStage_old p (O.jitter j) _ _ ?_
          push_cast
          exact hage
        exact absurd hbstage hnotold
      · rw [hid, hc0]
        exact hfresh j (s.ants[j]) hor hij
    · -- entry j is an egg created by phase-2 mating: its id is a fresh mateId
      obtain ⟨_, _, _, _, _, ⟨k, hk⟩, _⟩ :=
        (phase2_spec p O.noiseW O.noiseB O.mateId
          ((tickAnts1 O s).length + p.maxAnts + 1) 0 (tickAnts1 O s) []).2 j
          ((tickAnts2 p O s)[j]) (by omega) hj0
      rw [hid, hk]
      exact hm k
  · -- entry j is an egg appended during phase 3: its id is a fresh asexId
    obtain ⟨k, hk⟩ := phase3_new_ids p O.gen O.asexId O.jitter
      ((tickAnts2 p O s).length + p.maxAnts + 1) 0 (tickAnts2 p O s) s.grid j b
      hadq hge2 hj
    rw [hk]
    exact hx k

/-- Oracles equal to `c2Oracles` but with a zero lifespan-jitter draw (`Math.random() = 0.5`). -/
def c2OraclesZ : Oracles := { c2Oracles with jitter := fun _ => 0 }

theorem adult_reaching_lifespan_removed_witness :
    ((update p5 c2OraclesZ ⟨[c2Ant], []⟩).ants.all fun b => b.id ≠ c2Ant.id) = true := by
  rw [List.all_eq_true]
  intro b hb
  simp only [decide_eq_true_eq]
  exact adult_reaching_lifespan_removed p5 c2OraclesZ ⟨[c2Ant], []⟩ 0 c2Ant rfl rfl
    (by norm_num [c2OraclesZ, c2Oracles, c2Ant, p5])
    (by
      intro j d hj hne
      cases j with
      | zero => exact absurd rfl hne
      | succ n => simp at hj)
    (by
      intro k
      simp [c2OraclesZ, c2Oracles, c2Ant]
      omega)
    (by
      intro k
      simp [c2OraclesZ, c2Oracles, c2Ant]
      omega)
    b hb

theorem phase1_pair (pick : ℕ → Ant → Action) (x y : Ant) :
    phase1 pick [x, y] =
      [{ x with nextAction := if x.stage = Stage.egg then Action.none else pick 0 x },
       { y with nextAction := if y.stage = Stage.egg then Action.none else pick 1 y }] := by
  apply List.ext_getElem?
  intro i
  match i with
  | 0 =>
    rw [phase1_getElem pick [x, y] 0 x rfl]
    rfl
  | 1 =>
    rw [phase1_getElem pick [x, y] 1 y rfl]
    rfl
  | n + 2 =>
    rw [List.getElem?_eq_none, List.getElem?_eq_none]
    · simp only [List.length_cons, List.length_nil]
      omega
    · rw [phase1_length]
      simp only [List.length_cons, List.length_nil]
      omega

theorem phase2_stop (p : Params) (nW nB : ℕ → ℕ → ℕ → ℚ) (mid : ℕ → ℕ)
    (fuel i : ℕ) (ants : List Ant) (mated : List ℕ) (h : ants.length ≤ i) :
    phase2 p nW nB mid fuel i ants mated = ants := by
  cases fuel with
  | zero => rw [phase2]
  | succ n =>
    rw [phase2]
    rw [dif_neg (by omega)]

theorem phase2_step_skip (p : Params) (nW nB : ℕ → ℕ → ℕ → ℚ) (mid : ℕ → ℕ)
    (fuel i : ℕ) (ants : List Ant) (mated : List ℕ) (h : i < ants.length)
    (hne : ¬((ants.get ⟨i, h⟩).nextAction = Action.mate ∧
      (ants.get ⟨i, h⟩).stage = Stage.adult ∧ (ants.get ⟨i, h⟩).id ∉ mated)) :
    phase2 p nW nB mid (fuel + 1) i ants mated =
      phase2 p nW nB mid fuel (i + 1) ants mated := by
  rw [phase2, dif_pos h, if_neg hne]

theorem phase2_step_mate (p : Params) (nW nB : ℕ → ℕ → ℕ → ℚ) (mid : ℕ → ℕ)
    (fuel i : ℕ) (ants : List Ant) (mated : List ℕ) (partner : Ant)
    (h : i < ants.length)
    (helig : (ants.get ⟨i, h⟩).nextAction = Action.mate ∧
      (ants.get ⟨i, h⟩).stage = Stage.adult ∧ (ants.get ⟨i, h⟩).id ∉ mated)
    (hpart : findPartner ants mated (ants.get ⟨i, h⟩).x (ants.get ⟨i, h⟩).y = some partner)
    (hcap : ants.length < p.maxAnts) :
    phase2 p nW nB mid (fuel + 1) i ants mated =
      phase2 p nW nB mid fuel (i + 1)
        (ants ++ [mkMateEgg p (nW i) (nB i) (mid i) (ants.get ⟨i, h⟩) partner])
        (mated ++ [(ants.get ⟨i, h⟩).id, partner.id]) := by
  rw [phase2, dif_pos h, if_pos helig, hpart]
  show (if ants.length < p.maxAnts then
      phase2 p nW nB mid fuel (i + 1)
        (ants ++ [mkMateEgg p (nW i) (nB i) (mid i) (ants.get ⟨i, h⟩) partner])
        (mated ++ [(ants.get ⟨i, h⟩).id, partner.id])
    else phase2 p nW nB mid fuel (i + 1) ants mated) = _
  rw [if_pos hcap]

theorem phase3_stop (p : Params) (gen : ℤ → ℤ → Cell) (nid : ℕ → ℕ) (jitter : ℕ → ℚ)
    (fuel i : ℕ) (ants : List Ant) (g : Grid) (h : ants.length ≤ i) :
    phase3 p gen nid jitter fuel i ants g = (ants, g) := by
  cases fuel with
  | zero => rw [phase3]
  | succ n =>
    rw [phase3]
    rw [dif_neg (by omega)]

theorem phase3_step (p : Params) (gen : ℤ → ℤ → Cell) (nid : ℕ → ℕ) (jitter : ℕ → ℚ)
    (fuel i : ℕ) (ants : List Ant) (g : Grid) (h : i < ants.length) :
    phase3 p gen nid jitter (fuel + 1) i ants g =
      phase3 p gen nid jitter fuel (i + 1)
        (updateAt i (ageAnt p (jitter i)) (actPhase p gen nid i ants g h).1)
        (actPhase p gen nid i ants g h).2 := by
  rw [phase3, dif_pos h]

theorem actPhase_mate (p : Params) (gen : ℤ → ℤ → Cell) (nid : ℕ → ℕ)
    (i : ℕ) (ants : List Ant) (g : Grid) (h : i < ants.length)
    (hm : (ants.get ⟨i, h⟩).nextAction = Action.mate) :
    actPhase p gen nid i ants g h = (ants, g) := by
  unfold actPhase
  have hnn : ¬((ants.get ⟨i, h⟩).nextAction ≠ Action.mate) := fun hc => hc hm
  rw [if_neg hnn]

theorem actPhase_inert (p : Params) (gen : ℤ → ℤ → Cell) (nid : ℕ → ℕ)
    (i : ℕ) (ants : List Ant) (g : Grid) (h : i < ants.length)
    (hm : (ants.get ⟨i, h⟩).nextAction = Action.none) :
    actPhase p gen nid i ants g h = (ants, g) := by
  unfold actPhase
  have hne : (ants.get ⟨i, h⟩).nextAction ≠ Action.mate := by
    rw [hm]
    intro hc
    exact Action.noConfusion hc
  rw [if_pos hne]
  unfold processActionStep
  rw [hm]
  rfl

theorem ageAnt_adult (p : Params) (jit : ℚ) (a : Ant) (hst : a.stage = Stage.adult)
    (hage : (a.age : ℚ) + 1 < p.antLifespan + jit) :
    ageAnt p jit a =
      { a with age := a.age + 1, stageAge := a.stageAge + 1, health := a.health - 1 } := by
  rw [ageAnt_eq]
  have hcond : ¬(a.stage = Stage.egg ∧ p.eggToAdultTicks ≤ a.stageAge + 1) := by
    rw [hst]
    simp
  have hss : stepStage p jit a.stage (a.stageAge + 1) (a.age + 1) = a.stage := by
    unfold stepStage
    rw [hst]
    have hle : ¬(p.antLifespan + jit ≤ ((a.age + 1 : ℕ) : ℚ)) := by
      push_cast
      linarith
    simp [hle]
    linarith
  rw [if_neg hcond, hss]

theorem ageAnt_newEgg (p : Params) (jit : ℚ) (a : Ant) (hst : a.stage = Stage.egg)
    (hsa : a.stageAge = 0) (hticks : 2 ≤ p.eggToAdultTicks) :
    ageAnt p jit a =
      { a with age := a.age + 1, stageAge := a.stageAge + 1, health := a.health - 1 } := by
  rw [ageAnt_eq]
  have hcond : ¬(a.stage = Stage.egg ∧ p.eggToAdultTicks ≤ a.stageAge + 1) := by
    rw [hsa]
    intro hc
    omega
  have hss : stepStage p jit a.stage (a.stageAge + 1) (a.age + 1) = a.stage := by
    unfold stepStage
    rw [hst, hsa]
    have h1 : ¬(p.eggToAdultTicks ≤ 0 + 1) := by omega
    simp [h1]
  rw [if_neg hcond, hss]

/-- An ant whose decided action is `mate`. -/
def proposeMate (a : Ant) : Ant := { a with nextAction := Action.mate }

/-- A mate-proposing parent at the end of its tick: only the aging
upkeep has touched it (it executed no action). -/
def matedAged (a : Ant) : Ant :=
  { a with
      nextAction := Action.mate
      age := a.age + 1
      stageAge := a.stageAge + 1
      health := a.health - 1 }

/-- The phase-2 mating egg of initiator `a` and partner `b` at the end
of its birth tick (aged once by phase 3). -/
def matedEggAged (p : Params) (O : Oracles) (a b : Ant) : Ant :=
  { mkMateEgg p (O.noiseW 0) (O.noiseB 0) (O.mateId 0) (proposeMate a) (proposeMate b) with
      age := 1
      stageAge := 1
      health := 49 }

theorem findPartner_pair (a b : Ant) (hstB : b.stage = Stage.adult)
    (hadj : (b.x = a.x ∧ b.y = a.y - 1) ∨ (b.x = a.x ∧ b.y = a.y + 1) ∨
      (b.x = a.x - 1 ∧ b.y = a.y) ∨ (b.x = a.x + 1 ∧ b.y = a.y)) :
    findPartner [proposeMate a, proposeMate b] [] a.x a.y = some (proposeMate b) := by
  have n1 : ¬(a.y = a.y - 1) := by omega
  have n2 : ¬(a.y = a.y + 1) := by omega
  have n3 : ¬(a.x = a.x - 1) := by omega
  rcases hadj with ⟨hbx, hby⟩ | ⟨hbx, hby⟩ | ⟨hbx, hby⟩ | ⟨hbx, hby⟩
  · have hg1 : getAntAt [proposeMate a, proposeMate b] a.x (a.y - 1) =
        some (proposeMate b) := by
      simp [getAntAt, List.find?, proposeMate, hbx, hby, n1]
    unfold findPartner
    simp only [List.findSome?_cons]
    rw [hg1]
    simp [proposeMate, hstB]
  · have n4 : ¬(a.y + 1 = a.y - 1) := by omega
    have hg1 : getAntAt [proposeMate a, proposeMate b] a.x (a.y - 1) = Option.none := by
      simp [getAntAt, List.find?, proposeMate, hbx, hby, n1, n4]
    have hg2 : getAntAt [proposeMate a, proposeMate b] a.x (a.y + 1) =
        some (proposeMate b) := by
      simp [getAntAt, List.find?, proposeMate, hbx, hby, n2]
    unfold findPartner
    simp only [List.findSome?_cons]
    rw [hg1, hg2]
    simp [proposeMate, hstB]
  · have n5 : ¬(a.x - 1 = a.x) := by omega
    have hg1 : getAntAt [proposeMate a, proposeMate b] a.x (a.y - 1) = Option.none := by
      simp [getAntAt, List.find?, proposeMate, hbx, hby, n1, n5]
    have hg2 : getAntAt [proposeMate a, proposeMate b] a.x (a.y + 1) = Option.none := by
      simp [getAntAt, List.find?, proposeMate, hbx, hby, n2, n5]
    have hg3 : getAntAt [proposeMate a, proposeMate b] (a.x - 1) a.y =
        some (proposeMate b) := by
      simp [getAntAt, List.find?, proposeMate, hbx, hby, n3]
    unfold findPartner
    simp only [List.findSome?_cons]
    rw [hg1, hg2, hg3]
    simp [proposeMate, hstB]
  · have n6 : ¬(a.x + 1 = a.x) := by omega
    have n7 : ¬(a.x + 1 = a.x - 1) := by omega
    have n8 : ¬(a.x = a.x + 1) := by omega
    have hg1 : getAntAt [proposeMate a, proposeMate b] a.x (a.y - 1) = Option.none := by
      simp [getAntAt, List.find?, proposeMate, hbx, hby, n1, n6]
    have hg2 : getAntAt [proposeMate a, proposeMate b] a.x (a.y + 1) = Option.none := by
      simp [getAntAt, List.find?, proposeMate, hbx, hby, n2, n6]
    have hg3 : getAntAt [proposeMate a, proposeMate b] (a.x - 1) a.y = Option.none := by
      simp [getAntAt, List.find?, proposeMate, hbx, hby, n3, n7]
    have hg4 : getAntAt [proposeMate a, proposeMate b] (a.x + 1) a.y =
        some (proposeMate b) := by
      simp [getAntAt, List.find?, proposeMate, hbx, hby, n8]
    unfold findPartner
    simp only [List.findSome?_cons]
    rw [hg1, hg2, hg3, hg4]
    simp [proposeMate, hstB]

/-- C6: with exactly two adult organisms at orthogonally adjacent
coordinates, both proposing `mate` in phase 1, and the population below
`maxAnts`: the tick creates exactly one egg (placed at the initiator,
with the crossover genome and a fresh id — the `matedEggAged` entry),
neither parent executes any action that tick (each parent ends the tick
as `matedAged`: changed only by the aging upkeep — `age` and `stageAge`
up by one, `health` down by one, position and everything else
untouched), and the population grows from 2 to exactly 3.  The side
hypotheses keep everyone alive through the tick: healths above 1, ages
below the (jittered) lifespan, `eggToAdultTicks ≥ 2`. -/
theorem two_adjacent_maters_produce_one_egg (p : Params) (O : Oracles)
    (a b : Ant) (g : Grid)
    (hstA : a.stage = Stage.adult) (hstB : b.stage = Stage.adult)
    (hpickA : O.pick 0 a = Action.mate) (hpickB : O.pick 1 b = Action.mate)
    (hadj : (b.x = a.x ∧ b.y = a.y - 1) ∨ (b.x = a.x ∧ b.y = a.y + 1) ∨
      (b.x = a.x - 1 ∧ b.y = a.y) ∨ (b.x = a.x + 1 ∧ b.y = a.y))
    (hcap : 2 < p.maxAnts) (hticks : 2 ≤ p.eggToAdultTicks)
    (hhA : 1 < a.health) (hhB : 1 < b.health)
    (hageA : (a.age : ℚ) + 1 < p.antLifespan + O.jitter 0)
    (hageB : (b.age : ℚ) + 1 < p.antLifespan + O.jitter 1) :
    (update p O ⟨[a, b], g⟩).ants.length = 3 ∧
    (update p O ⟨[a, b], g⟩).ants = [matedAged a, matedAged b, matedEggAged p O a b] := by
  have hcA : ¬(a.stage = Stage.egg) := by
    rw [hstA]
    intro hc
    exact Stage.noConfusion hc
  have hcB : ¬(b.stage = Stage.egg) := by
    rw [hstB]
    intro hc
    exact Stage.noConfusion hc
  have h1 : tickAnts1 O ⟨[a, b], g⟩ = [proposeMate a, proposeMate b] := by
    show phase1 O.pick [a, b] = _
    rw [phase1_pair, if_neg hcA, if_neg hcB, hpickA, hpickB]
    rfl
  have h0lt : (0 : ℕ) < ([proposeMate a, proposeMate b] : List Ant).length := by norm_num
  have hfp := findPartner_pair a b hstB hadj
  have h2 : tickAnts2 p O ⟨[a, b], g⟩ =
      [proposeMate a, proposeMate b,
        mkMateEgg p (O.noiseW 0) (O.noiseB 0) (O.mateId 0) (proposeMate a)
          (proposeMate b)] := by
    unfold tickAnts2
    rw [h1]
    show phase2 p O.noiseW O.noiseB O.mateId (2 + p.maxAnts + 1) 0
      [proposeMate a, proposeMate b] [] = _
    rw [phase2_step_mate p O.noiseW O.noiseB O.mateId (2 + p.maxAnts) 0
      [proposeMate a, proposeMate b] [] (proposeMate b) h0lt ⟨rfl, hstA, by simp⟩ hfp hcap]
    show phase2 p O.noiseW O.noiseB O.mateId (2 + p.maxAnts) 1
      [proposeMate a, proposeMate b,
        mkMateEgg p (O.noiseW 0) (O.noiseB 0) (O.mateId 0) (proposeMate a)
          (proposeMate b)]
      [a.id, b.id] = _
    rw [show 2 + p.maxAnts = 1 + p.maxAnts + 1 from by omega]
    rw [phase2_step_skip p O.noiseW O.noiseB O.mateId (1 + p.maxAnts) 1
      [proposeMate a, proposeMate b,
        mkMateEgg p (O.noiseW 0) (O.noiseB 0) (O.mateId 0) (proposeMate a)
          (proposeMate b)]
      [a.id, b.id] (by norm_num) (fun hc => hc.2.2 (by simp [proposeMate]))]
    rw [show 1 + p.maxAnts = 0 + p.maxAnts + 1 from by omega]
    have hlt2 : (2 : ℕ) < ([proposeMate a, proposeMate b,
        mkMateEgg p (O.noiseW 0) (O.noiseB 0) (O.mateId 0) (proposeMate a)
          (proposeMate b)] : List Ant).length := by norm_num
    have hne2 : ¬((([proposeMate a, proposeMate b,
          mkMateEgg p (O.noiseW 0) (O.noiseB 0) (O.mateId 0) (proposeMate a)
            (proposeMate b)] : List Ant).get ⟨2, hlt2⟩).nextAction = Action.mate ∧
        (([proposeMate a, proposeMate b,
          mkMateEgg p (O.noiseW 0) (O.noiseB 0) (O.mateId 0) (proposeMate a)
            (proposeMate b)] : List Ant).get ⟨2, hlt2⟩).stage = Stage.adult ∧
        (([proposeMate a, proposeMate b,
          mkMateEgg p (O.noiseW 0) (O.noiseB 0) (O.mateId 0) (proposeMate a)
            (proposeMate b)] : List Ant).get ⟨2, hlt2⟩).id ∉ ([a.id, b.id] : List ℕ)) :=
      fun hc => (Action.noConfusion (show Action.none = Action.mate from hc.1) : False)
    rw [phase2_step_skip p O.noiseW O.noiseB O.mateId (0 + p.maxAnts) 2
      [proposeMate a, proposeMate b,
        mkMateEgg p (O.noiseW 0) (O.noiseB 0) (O.mateId 0) (proposeMate a)
          (proposeMate b)]
      [a.id, b.id] hlt2 hne2]
    rw [phase2_stop p O.noiseW O.noiseB O.mateId (0 + p.maxAnts) 3
      [proposeMate a, proposeMate b,
        mkMateEgg p (O.noiseW 0) (O.noiseB 0) (O.mateId 0) (proposeMate a)
          (proposeMate b)]
      [a.id, b.id] (by norm_num)]
  have haA : ageAnt p (O.jitter 0) (proposeMate a) = matedAged a := by
    rw [ageAnt_adult p (O.jitter 0) (proposeMate a) hstA hageA]
    rfl
  have haB : ageAnt p (O.jitter 1) (proposeMate b) = matedAged b := by
    rw [ageAnt_adult p (O.jitter 1) (proposeMate b) hstB hageB]
    rfl
  have haE : ageAnt p (O.jitter 2)
      (mkMateEgg p (O.noiseW 0) (O.noiseB 0) (O.mateId 0) (proposeMate a)
        (proposeMate b)) = matedEggAged p O a b := by
    rw [ageAnt_newEgg p (O.jitter 2)
      (mkMateEgg p (O.noiseW 0) (O.noiseB 0) (O.mateId 0) (proposeMate a)
        (proposeMate b)) rfl rfl hticks]
    have hh : (mkMateEgg p (O.noiseW 0) (O.noiseB 0) (O.mateId 0) (proposeMate a)
        (proposeMate b)).health - 1 = 49 := by
      show (50 : ℚ) - 1 = 49
      norm_num
    rw [hh]
    rfl
  have h3 : tickPhase3 p O ⟨[a, b], g⟩ =
      ([matedAged a, matedAged b, matedEggAged p O a b], g) := by
    unfold tickPhase3
    rw [h2]
    have hb0 : (0 : ℕ) < ([proposeMate a, proposeMate b,
        mkMateEgg p (O.noiseW 0) (O.noiseB 0) (O.mateId 0) (proposeMate a)
          (proposeMate b)] : List Ant).length := by norm_num
    show phase3 p O.gen O.asexId O.jitter (3 + p.maxAnts + 1) 0
      [proposeMate a, proposeMate b,
        mkMateEgg p (O.noiseW 0) (O.noiseB 0) (O.mateId 0) (proposeMate a)
          (proposeMate b)] g = _
    rw [phase3_step p O.gen O.asexId O.jitter (3 + p.maxAnts) 0
      [proposeMate a, proposeMate b,
        mkMateEgg p (O.noiseW 0) (O.noiseB 0) (O.mateId 0) (proposeMate a)
          (proposeMate b)] g hb0,
      actPhase_mate p O.gen O.asexId 0
      [proposeMate a, proposeMate b,
        mkMateEgg p (O.noiseW 0) (O.noiseB 0) (O.mateId 0) (proposeMate a)
          (proposeMate b)] g hb0 rfl]
    show phase3 p O.gen O.asexId O.jitter (3 + p.maxAnts) 1
      (updateAt 0 (ageAnt p (O.jitter 0))
        [proposeMate a, proposeMate b,
          mkMateEgg p (O.noiseW 0) (O.noiseB 0) (O.mateId 0) (proposeMate a)
            (proposeMate b)]) g = _
    have hu0 : updateAt 0 (ageAnt p (O.jitter 0))
        [proposeMate a, proposeMate b,
          mkMateEgg p (O.noiseW 0) (O.noiseB 0) (O.mateId 0) (proposeMate a)
            (proposeMate b)] =
        [ageAnt p (O.jitter 0) (proposeMate a), proposeMate b,
          mkMateEgg p (O.noiseW 0) (O.noiseB 0) (O.mateId 0) (proposeMate a)
            (proposeMate b)] := rfl
    rw [hu0, haA]
    have hb1 : (1 : ℕ) < ([matedAged a, proposeMate b,
        mkMateEgg p (O.noiseW 0) (O.noiseB 0) (O.mateId 0) (proposeMate a)
          (proposeMate b)] : List Ant).length := by norm_num
    rw [show 3 + p.maxAnts = 2 + p.maxAnts + 1 from by omega]
    rw [phase3_step p O.gen O.asexId O.jitter (2 + p.maxAnts) 1
      [matedAged a, proposeMate b,
        mkMateEgg p (O.noiseW 0) (O.noiseB 0) (O.mateId 0) (proposeMate a)
          (proposeMate b)] g hb1,
      actPhase_mate p O.gen O.asexId 1
      [matedAged a, proposeMate b,
        mkMateEgg p (O.noiseW 0) (O.noiseB 0) (O.mateId 0) (proposeMate a)
          (proposeMate b)] g hb1 rfl]
    show phase3 p O.gen O.asexId O.jitter (2 + p.maxAnts) 2
      (updateAt 1 (ageAnt p (O.jitter 1))
        [matedAged a, proposeMate b,
          mkMateEgg p (O.noiseW 0) (O.noiseB 0) (O.mateId 0) (proposeMate a)
            (proposeMate b)]) g = _
    have hu1 : updateAt 1 (ageAnt p (O.jitter 1))
        [matedAged a, proposeMate b,
          mkMateEgg p (O.noiseW 0) (O.noiseB 0) (O.mateId 0) (proposeMate a)
            (proposeMate b)] =
        [matedAged a, ageAnt p (O.jitter 1) (proposeMate b),
          mkMateEgg p (O.noiseW 0) (O.noiseB 0) (O.mateId 0) (proposeMate a)
            (proposeMate b)] := rfl
    rw [hu1, haB]
    have hb2 : (2 : ℕ) < ([matedAged a, matedAged b,
        mkMateEgg p (O.noiseW 0) (O.noiseB 0) (O.mateId 0) (proposeMate a)
          (proposeMate b)] : List Ant).length := by norm_num
    rw [show 2 + p.maxAnts = 1 + p.maxAnts + 1 from by omega]
    rw [phase3_step p O.gen O.asexId O.jitter (1 + p.maxAnts) 2
      [matedAged a, matedAged b,
        mkMateEgg p (O.noiseW 0) (O.noiseB 0) (O.mateId 0) (proposeMate a)
          (proposeMate b)] g hb2,
      actPhase_inert p O.gen O.asexId 2
      [matedAged a, matedAged b,
        mkMateEgg p (O.noiseW 0) (O.noiseB 0) (O.mateId 0) (proposeMate a)
          (proposeMate b)] g hb2 rfl]
    show phase3 p O.gen O.asexId O.jitter (1 + p.maxAnts) 3
      (updateAt 2 (ageAnt p (O.jitter 2))
        [matedAged a, matedAged b,
          mkMateEgg p (O.noiseW 0) (O.noiseB 0) (O.mateId 0) (proposeMate a)
            (proposeMate b)]) g = _
    have hu2 : updateAt 2 (ageAnt p (O.jitter 2))
        [matedAged a, matedAged b,
          mkMateEgg p (O.noiseW 0) (O.noiseB 0) (O.mateId 0) (proposeMate a)
            (proposeMate b)] =
        [matedAged a, matedAged b,
          ageAnt p (O.jitter 2) (mkMateEgg p (O.noiseW 0) (O.noiseB 0) (O.mateId 0)
            (proposeMate a) (proposeMate b))] := rfl
    rw [hu2, haE]
    rw [phase3_stop p O.gen O.asexId O.jitter (1 + p.maxAnts) 3
      [matedAged a, matedAged b, matedEggAged p O a b] g (by norm_num)]
  have hA1 : (0 : ℚ) < a.health - 1 := by linarith
  have hB1 : (0 : ℚ) < b.health - 1 := by linarith
  have hE1 : (0 : ℚ) < 49 := by norm_num
  have hfil : (update p O ⟨[a, b], g⟩).ants =
      [matedAged a, matedAged b, matedEggAged p O a b] := by
    unfold update
    rw [h3]
    simp [List.filter_cons, matedAged, matedEggAged, proposeMate, mkMateEgg,
      hA1, hB1, hE1, hstA, hstB]
  refine ⟨?_, hfil⟩
  rw [hfil]
  rfl

/-- Oracles for the mating scenario: every decision draw picks `mate`,
noise draws are the neutral 0.5, the lifespan jitter draw is zero. -/
def c6O : Oracles :=
  { pick := fun _ _ => Action.mate
    noiseW := fun _ _ _ => 1/2
    noiseB := fun _ _ _ => 1/2
    mateId := fun k => 100 + k
    asexId := fun k => 200 + k
    jitter := fun _ => 0
    gen := fun _ _ => Cell.empty }

/-- First mating adult, at the origin. -/
def c6A : Ant :=
  { x := 0, y := 0, age := 10, health := 100, stage := Stage.adult, stageAge := 4,
    id := 1, genome := g10, nextAction := Action.none }

/-- Second mating adult, directly below the first. -/
def c6B : Ant :=
  { x := 0, y := 1, age := 12, health := 80, stage := Stage.adult, stageAge := 6,
    id := 2, genome := g10, nextAction := Action.none }

theorem two_adjacent_maters_produce_one_egg_witness :
    (update p5 c6O ⟨[c6A, c6B], []⟩).ants.length = 3 ∧
    (update p5 c6O ⟨[c6A, c6B], []⟩).ants =
      [matedAged c6A, matedAged c6B, matedEggAged p5 c6O c6A c6B] :=
  two_adjacent_maters_produce_one_egg p5 c6O c6A c6B [] rfl rfl rfl rfl
    (Or.inr (Or.inl (by decide))) (by decide) (by decide)
    (by norm_num [c6A]) (by norm_num [c6B])
    (by norm_num [c6A, p5, c6O]) (by norm_num [c6B, p5, c6O])

/-- C10: every offspring pushed into the live list during a tick — a
mating egg from phase 2 or an asexual clone egg from phase 3 — occupies
an index at or beyond the tick-start population, is itself iterated by
the phase-3 aging pass of the same tick, and therefore ends its birth
tick with `age = 1`, `stageAge = 1`, `health = 49` (not the starting 50)
and still `stage = egg` (assuming `eggToAdultTicks ≥ 2` so a
one-tick-old egg cannot hatch). -/
theorem offspring_aged_same_tick (p : Params) (O : Oracles) (s : SimState)
    (hticks : 2 ≤ p.eggToAdultTicks) :
    ∀ j c, s.ants.length ≤ j → (tickPhase3 p O s).1[j]? = some c →
      c.age = 1 ∧ c.stageAge = 1 ∧ c.health = 49 ∧ c.stage = Stage.egg := by
  intro j c hge hj
  have hn1 : (tickAnts1 O s).length = s.ants.length := phase1_length O.pick s.ants
  have hadq : max (tickAnts2 p O s).length p.maxAnts + 1 ≤
      ((tickAnts2 p O s).length + p.maxAnts + 1) + 0 := by
    have := Nat.max_le.mpr
      ⟨Nat.le_add_right (tickAnts2 p O s).length p.maxAnts,
        Nat.le_add_left p.maxAnts (tickAnts2 p O s).length⟩
    omega
  unfold tickPhase3 at hj
  rcases Nat.lt_or_ge j (tickAnts2 p O s).length with hlt | hge2
  · -- an egg created by mating in phase 2, aged by phase 3
    have hj0 : (tickAnts2 p O s)[j]? = some ((tickAnts2 p O s)[j]) :=
      List.getElem?_eq_getElem hlt
    obtain ⟨hag0, hsa0, hh50, hstg, hna, _, k2, d, hk2lt, hk2, hdx, hdy, hdmate⟩ :=
      (phase2_spec p O.noiseW O.noiseB O.mateId
        ((tickAnts1 O s).length + p.maxAnts + 1) 0 (tickAnts1 O s) []).2 j
        ((tickAnts2 p O s)[j]) (by omega) hj0
    have hshadow : ∃ k d2, k < j ∧ (tickAnts2 p O s)[k]? = some d2 ∧
        d2.x = ((tickAnts2 p O s)[j]).x ∧ d2.y = ((tickAnts2 p O s)[j]).y ∧
        isMove d2.nextAction = false :=
      ⟨k2, d, hk2lt, hk2, hdx, hdy, by rw [hdmate]; rfl⟩
    have hfin := phase3_egg_aged p O.gen O.asexId O.jitter hticks
      ((tickAnts2 p O s).length + p.maxAnts + 1) 0 (tickAnts2 p O s) s.grid j
      ((tickAnts2 p O s)[j]) hadq (Nat.zero_le j) hj0 hag0 hsa0 hh50 hstg hna hshadow
    rw [hfin] at hj
    have hc : c = { (tickAnts2 p O s)[j] with age := 1, stageAge := 1, health := 49 } :=
      ((Option.some.injEq _ _).mp hj).symm
    rw [hc]
    exact ⟨rfl, rfl, rfl, hstg⟩
  · -- an asexual clone egg appended during phase 3 and aged before the loop ends
    obtain ⟨h1, h2, h3, h4, _⟩ := phase3_new_entries p O.gen O.asexId O.jitter hticks
      ((tickAnts2 p O s).length + p.maxAnts + 1) 0 (tickAnts2 p O s) s.grid j c
      hadq hge2 hj
    exact ⟨h1, h2, h3, h4⟩

/-- Oracles for the asexual-reproduction scenario: every decision draw
picks `asexual`, the lifespan jitter draw is zero. -/
def c10O : Oracles :=
  { pick := fun _ _ => Action.asexual
    noiseW := fun _ _ _ => 1/2
    noiseB := fun _ _ _ => 1/2
    mateId := fun k => 100 + k
    asexId := fun k => 200 + k
    jitter := fun _ => 0
    gen := fun _ _ => Cell.empty }

/-- A mid-life adult that will reproduce asexually. -/
def c10Ant : Ant :=
  { x := 0, y := 0, age := 10, health := 100, stage := Stage.adult, stageAge := 4,
    id := 3, genome := g10, nextAction := Action.none }

/-- The ant `c10Ant` after phase 1. -/
def c10a1 : Ant := { c10Ant with nextAction := Action.asexual }

/-- The parent right after the asexual split halves its health. -/
def c10par : Ant := { c10a1 with health := 100 / 2 }

/-- The freshly pushed clone egg (before aging). -/
def c10egg0 : Ant := asexEgg c10a1 (c10O.asexId 0)

/-- The parent at the end of phase 3. -/
def c10parA : Ant := { c10par with age := 11, stageAge := 5, health := 100 / 2 - 1 }

/-- The clone egg at the end of its birth tick. -/
def c10egg : Ant := { c10egg0 with age := 1, stageAge := 1, health := 50 - 1 }

theorem c10_phase3_eval :
    (tickPhase3 p5 c10O ⟨[c10Ant], []⟩).1[1]? = some c10egg := by
  have h2 : tickAnts2 p5 c10O ⟨[c10Ant], []⟩ = [c10a1] := rfl
  have hlt0 : (0 : ℕ) < ([c10a1] : List Ant).length := by norm_num
  have hact0 : actPhase p5 c10O.gen c10O.asexId 0 [c10a1] [] hlt0 =
      ([c10par, c10egg0], []) := rfl
  have haged0 : ageAnt p5 (c10O.jitter 0) c10par = c10parA := by
    rw [ageAnt_eq]
    have e1 : c10par.stage = Stage.adult := rfl
    have hcond : ¬(c10par.stage = Stage.egg ∧ p5.eggToAdultTicks ≤ c10par.stageAge + 1) := by
      rw [e1]
      simp
    have hcast : ((c10par.age + 1 : ℕ) : ℚ) = 11 := by norm_num [c10par, c10a1, c10Ant]
    have hss : stepStage p5 (c10O.jitter 0) c10par.stage (c10par.stageAge + 1)
        (c10par.age + 1) = Stage.adult := by
      unfold stepStage
      rw [e1, hcast]
      have hle : ¬(p5.antLifespan + c10O.jitter 0 ≤ (11 : ℚ)) := by
        norm_num [p5, c10O]
      simp [hle]
    rw [if_neg hcond, hss]
    show ({ c10par with
              age := c10par.age + 1, stageAge := c10par.stageAge + 1,
              health := c10par.health - 1, stage := c10par.stage } : Ant) = c10parA
    have e2 : c10par.age + 1 = 11 := rfl
    have e3 : c10par.stageAge + 1 = 5 := rfl
    rw [e1, e2, e3]
    rfl
  have hlt1 : (1 : ℕ) < ([c10parA, c10egg0] : List Ant).length := by norm_num
  have hact1 : actPhase p5 c10O.gen c10O.asexId 1 [c10parA, c10egg0] [] hlt1 =
      ([c10parA, c10egg0], []) := rfl
  have haged1 : ageAnt p5 (c10O.jitter 1) c10egg0 = c10egg := by
    rw [ageAnt_eq]
    have e1 : c10egg0.stage = Stage.egg := rfl
    have hcond : ¬(c10egg0.stage = Stage.egg ∧ p5.eggToAdultTicks ≤ c10egg0.stageAge + 1) := by
      rw [e1]
      have : ¬(p5.eggToAdultTicks ≤ c10egg0.stageAge + 1) := by decide
      simp [this]
    have hss : stepStage p5 (c10O.jitter 1) c10egg0.stage (c10egg0.stageAge + 1)
        (c10egg0.age + 1) = Stage.egg := by
      unfold stepStage
      rw [e1]
      have h1 : ¬(p5.eggToAdultTicks ≤ c10egg0.stageAge + 1) := by decide
      have h2 : ¬(Stage.egg = Stage.adult ∧
          p5.antLifespan + c10O.jitter 1 ≤ ((c10egg0.age + 1 : ℕ) : ℚ)) := by
        intro hc
        exact absurd hc.1 (by decide)
      simp [h1, h2]
    rw [if_neg hcond, hss]
    show ({ c10egg0 with
              age := c10egg0.age + 1, stageAge := c10egg0.stageAge + 1,
              health := c10egg0.health - 1, stage := c10egg0.stage } : Ant) = c10egg
    have e2 : c10egg0.age + 1 = 1 := rfl
    have e3 : c10egg0.stageAge + 1 = 1 := rfl
    rw [e1, e2, e3]
    rfl
  have h3 : tickPhase3 p5 c10O ⟨[c10Ant], []⟩ = ([c10parA, c10egg], []) := by
    unfold tickPhase3
    rw [h2]
    show phase3 p5 c10O.gen c10O.asexId c10O.jitter (6 + 1) 0 [c10a1] [] =
      ([c10parA, c10egg], [])
    rw [phase3, dif_pos hlt0, hact0]
    show phase3 p5 c10O.gen c10O.asexId c10O.jitter (5 + 1) 1
      (updateAt 0 (ageAnt p5 (c10O.jitter 0)) [c10par, c10egg0]) [] =
      ([c10parA, c10egg], [])
    have hupd0 : updateAt 0 (ageAnt p5 (c10O.jitter 0)) [c10par, c10egg0] =
        [ageAnt p5 (c10O.jitter 0) c10par, c10egg0] := rfl
    rw [hupd0, haged0, phase3, dif_pos hlt1, hact1]
    show phase3 p5 c10O.gen c10O.asexId c10O.jitter (4 + 1) 2
      (updateAt 1 (ageAnt p5 (c10O.jitter 1)) [c10parA, c10egg0]) [] =
      ([c10parA, c10egg], [])
    have hupd1 : updateAt 1 (ageAnt p5 (c10O.jitter 1)) [c10parA, c10egg0] =
        [c10parA, ageAnt p5 (c10O.jitter 1) c10egg0] := rfl
    rw [hupd1, haged1, phase3, dif_neg (by norm_num)]
  rw [h3]
  rfl

theorem offspring_aged_same_tick_witness :
    c10egg.age = 1 ∧ c10egg.stageAge = 1 ∧ c10egg.health = 49 ∧
      c10egg.stage = Stage.egg :=
  offspring_aged_same_tick p5 c10O ⟨[c10Ant], []⟩ (by norm_num [p5]) 1 c10egg
    (by norm_num) c10_phase3_eval

/-- C5: after `update` returns, every surviving organism has positive
health and is not in the `old` stage (the two cull filters). -/
theorem post_cull_health_pos_not_old (p : Params) (O : Oracles) (s : SimState) :
    ∀ b ∈ (update p O s).ants, 0 < b.health ∧ b.stage ≠ Stage.old := by
  intro b hb
  simp only [update, List.mem_filter, decide_eq_true_eq] at hb
  exact ⟨hb.1.2, hb.2⟩

/-- A just-laid egg used by the cull-invariant witness scenario. -/
def c5Ant : Ant :=
  { x := 0, y := 0, age := 0, health := 50, stage := Stage.egg, stageAge := 0,
    id := 9, genome := g10, nextAction := Action.none }

/-- The egg `c5Ant` after one tick: aged once, still an egg. -/
def c5Aged : Ant := { c5Ant with age := 1, stageAge := 1, health := 50 - 1 }

theorem c5_update_eval :
    (update p5 c10O ⟨[c5Ant], []⟩).ants = [c5Aged] := by
  have h2 : tickAnts2 p5 c10O ⟨[c5Ant], []⟩ = [c5Ant] := rfl
  have hlt : (0 : ℕ) < ([c5Ant] : List Ant).length := by norm_num
  have hact : actPhase p5 c10O.gen c10O.asexId 0 [c5Ant] [] hlt = ([c5Ant], []) := rfl
  have haged : ageAnt p5 (c10O.jitter 0) c5Ant = c5Aged := by
    rw [ageAnt_newEgg p5 (c10O.jitter 0) c5Ant rfl rfl (by norm_num [p5])]
    rfl
  have h3 : tickPhase3 p5 c10O ⟨[c5Ant], []⟩ = ([c5Aged], []) := by
    unfold tickPhase3
    rw [h2]
    show phase3 p5 c10O.gen c10O.asexId c10O.jitter (6 + 1) 0 [c5Ant] [] = ([c5Aged], [])
    rw [phase3, dif_pos hlt, hact]
    show phase3 p5 c10O.gen c10O.asexId c10O.jitter (5 + 1) 1
      (updateAt 0 (ageAnt p5 (c10O.jitter 0)) [c5Ant]) [] = ([c5Aged], [])
    have hupd : updateAt 0 (ageAnt p5 (c10O.jitter 0)) [c5Ant] =
        [ageAnt p5 (c10O.jitter 0) c5Ant] := rfl
    rw [hupd, haged, phase3, dif_neg (by norm_num)]
  unfold update
  rw [h3]
  have hh : (0 : ℚ) < c5Aged.health := by
    show (0 : ℚ) < 50 - 1
    norm_num
  have hso : ¬c5Aged.stage = Stage.old := by decide
  simp [List.filter_cons, hh, hso]

theorem post_cull_health_pos_not_old_witness :
    0 < c5Aged.health ∧ c5Aged.stage ≠ Stage.old :=
  post_cull_health_pos_not_old p5 c10O ⟨[c5Ant], []⟩ c5Aged
    (by
      rw [c5_update_eval]
      exact List.mem_singleton.mpr rfl)

end AntSim
